import Mathlib

/-!
Shallow embedding of `opium-decorator-resolvers` (src/index.ts): the descriptor
registry, the decorator-driven descriptor builder (`register`, `registerDeps`,
`registerParam`), the graph registrar (`registerWithContainer`), and the
injection-session plumbing (`injectableFactory`, `getInjectable`, `inject`).

Modelling conventions:
* JavaScript values that are used as identifiers, targets or reflected types
  are collapsed into one inductive `Key`; `Key.undef` is the JS `undefined`.
* Mutable descriptor objects live in a heap (`List ResolverMeta`) addressed by
  `Nat` references, so that aliasing through the registry, the reflect-metadata
  store and `deps` arrays behaves as in the source.
* Sparse JS arrays (`deps[i] = x` beyond the length) are `List (Option _)`
  with explicit holes; `getIdx`/`setIdx` mirror JS indexing semantics.
* Exceptions are surfaced as an `Option JsErr` next to the post-throw state,
  because a JS throw does not roll back mutations already performed.
* The non-terminating-looking `while` loop of `registerWithContainer` runs on
  explicit fuel; running out of fuel yields `none`, never a wrong answer.
-/

set_option autoImplicit false

namespace OpiumDecor

universe u v

/-- Mirrors the `LifeCycle` enum imported from `opium-ioc`. Its values are
opaque to this repository; the builder only stores and forwards them. -/
inductive LifeCycle where
  | SINGLETON
  | PROTOTYPE
  deriving DecidableEq

/-- The `ResolverType` enum of the source. -/
inductive ResolverType where
  | TYPE
  | FACTORY
  | INSTANCE
  deriving DecidableEq

/-- JS values that flow through the builder as identifiers, targets, reflected
types or registry keys. `cls n s` is a class object with identity `n` and
`.name = s`; `prim s` is a built-in constructor such as `Number`; `proto n` is
the prototype object of class `n`; `fn n` a plain function object; `value n`
an opaque captured value; `undef` is `undefined`. -/
inductive Key where
  | str : String → Key
  | cls : Nat → String → Key
  | prim : String → Key
  | proto : Nat → Key
  | fn : Nat → Key
  | value : Nat → Key
  | undef : Key
  deriving DecidableEq

/-- JS truthiness for the keys that occur as optional identifiers:
`undefined` and the empty string are falsy. -/
def isFalsy : Key → Bool
  | Key.undef => true
  | Key.str s => s = ""
  | _ => false

/-- The JS `a || b` idiom used for identifiers (`id || target` etc.). -/
def jsOr (a b : Key) : Key := if isFalsy a then b else a

/-- The JS `lifeCycle || targetMeta.lifeCycle` idiom: an omitted argument is
`undefined`, hence falsy; a supplied (external, opaque) enum value is taken
as given. -/
def jsOrLC (o : Option LifeCycle) (cur : LifeCycle) : LifeCycle :=
  match o with
  | none => cur
  | some l => l

/-- The `.name` property of a key, `none` when it is `undefined` (as for plain
objects and strings, which have no `name`). Reading `.name` off the `undefined`
value itself is a `TypeError` and is handled at the call sites. -/
def nameProp : Key → Option String
  | Key.cls _ s => some s
  | Key.prim s => some s
  | Key.fn _ => some ""
  | _ => none

/-- `isSimpleType` from the source: membership of a type name in the fixed
list of primitive/simple type names. -/
def isSimpleType (name : String) : Bool :=
  ["String", "Number", "Boolean", "Object", "undefined", "Array", "Function"].contains name

/-- `isSimpleType(param.name)` for a non-`undefined` param: a missing `.name`
(JS `undefined`) is not in the list, so it counts as not simple. -/
def simpleNamed (p : Key) : Bool :=
  match nameProp p with
  | some nm => isSimpleType nm
  | none => false

/-- `dep.target.prototype` as a registry key: only class objects have a
prototype that property declarations can have stored a descriptor under. -/
def protoOf : Key → Option Key
  | Key.cls n _ => some (Key.proto n)
  | _ => none

/-- Errors a declaration or registration can throw. `missingIdentifier` is the
`type ... requires a custom identifier` error; `typeError` models a JS
`TypeError` from reading a property of `undefined`; `nullDeref` models the
`TypeError` from dereferencing the cleared (`null`) session container;
`unknownDepType` is the `Unknown dependency type` error (unreachable here
because `ResolverType` is exhaustive in the model). -/
inductive JsErr where
  | missingIdentifier
  | typeError
  | nullDeref
  | unknownDepType
  deriving DecidableEq

/-- The `ResolverMeta` class. `deps` holds heap references to child
descriptors, with `none` for holes of the sparse JS array; `metaKey` is the
member name for property-style children. -/
structure ResolverMeta where
  id : Key
  target : Key
  type : ResolverType
  lifeCycle : LifeCycle
  deps : List (Option Nat)
  metaKey : Key
  deriving DecidableEq

/-- A freshly constructed `ResolverMeta`: the class field initializers give
`type = TYPE` and `lifeCycle = SINGLETON`; everything else is `undefined`
or empty. -/
def newResolverMeta : ResolverMeta :=
  { id := Key.undef, target := Key.undef, type := ResolverType.TYPE,
    lifeCycle := LifeCycle.SINGLETON, deps := [], metaKey := Key.undef }

/- Association lists with `Map.get`/`Map.set` semantics. -/

/-- `Map.get`. -/
def lookupA {α : Type u} {β : Type v} [DecidableEq α] (k : α) : List (α × β) → Option β
  | [] => none
  | (a, b) :: t => if a = k then some b else lookupA k t

/-- `Map.set`: replace in place if the key is present, else append. -/
def setAssoc {α : Type u} {β : Type v} [DecidableEq α] : List (α × β) → α → β → List (α × β)
  | [], k, x => [(k, x)]
  | (a, b) :: t, k, x => if a = k then (k, x) :: t else (a, b) :: setAssoc t k x

/- List access with a default, mirroring in-range JS object/array reads. -/

/-- Read index `n`, returning `d` out of range. -/
def nthD {α : Type u} : List α → Nat → α → α
  | [], _, d => d
  | a :: _, 0, _ => a
  | _ :: t, n + 1, d => nthD t n d

/-- Write index `n` in place; out of range is a no-op (the flows below only
write allocated references). -/
def setNth {α : Type u} : List α → Nat → α → List α
  | [], _, _ => []
  | _ :: t, 0, x => x :: t
  | a :: t, n + 1, x => a :: setNth t n x

/-- Read `deps[i]` of a sparse array: holes and out-of-range reads are
`undefined`. -/
def getIdx {α : Type u} : List (Option α) → Nat → Option α
  | [], _ => none
  | a :: _, 0 => a
  | _ :: t, n + 1 => getIdx t n

/-- `deps[i] = x` on a sparse array: pad with holes up to `i`, then set. -/
def setIdx {α : Type u} : List (Option α) → Nat → α → List (Option α)
  | [], 0, x => [some x]
  | [], n + 1, x => none :: setIdx [] n x
  | _ :: t, 0, x => some x :: t
  | a :: t, n + 1, x => a :: setIdx t n x

/- Declaration-time state and environment. -/

/-- The mutable stores a declaration touches: the descriptor heap (JS object
identity), the reflect-metadata store for `OPIUM_META` keyed by declaration
site `(target, propertyKey)`, and the module-level `registry` map. Both maps
hold heap references, as the source holds object references. -/
structure DState where
  heap : List ResolverMeta
  siteMeta : List ((Key × Key) × Nat)
  registry : List (Key × Nat)
  deriving DecidableEq

/-- The external reflection collaborator: `design:paramtypes` and
`design:returntype` lookups (absent metadata is `none`), and `target[key]`
reads used by the property branch (`undef` when the member has no value). -/
structure ReflectEnv where
  paramtypes : Key → Key → Option (List Key)
  returntype : Key → Key → Option Key
  propValue : Key → Key → Key

/-- The third decorator argument: absent, a property descriptor (with or
without `get`/`set` accessors, carrying `descriptor.value`), or a parameter
index. -/
inductive DescArg where
  | undef : DescArg
  | desc : Bool → Key → DescArg
  | idx : Nat → DescArg
  deriving DecidableEq

/-- `descriptor && (descriptor.get || descriptor.set)`: only a descriptor
object with an accessor forces the property branch (numbers have no
`get`/`set`). -/
def isAccessorDesc : DescArg → Bool
  | DescArg.desc b _ => b
  | _ => false

/-- `descriptor.value`; reading it off a number or `undefined` never happens
on the factory path, so other shapes map to `undefined`. -/
def descValue : DescArg → Key
  | DescArg.desc _ v => v
  | _ => Key.undef

/-- `Reflect.getMetadata(OPIUM_META, target, key)` with create-on-miss, as in
all three branches of `register`: fetch the descriptor reference stored at the
declaration site, or allocate `new ResolverMeta()` with `target` set and
define it as metadata. Returns the state and the descriptor reference. -/
def getOrCreateSiteMeta (st : DState) (target key : Key) : DState × Nat :=
  match lookupA (target, key) st.siteMeta with
  | some r => (st, r)
  | none =>
    let r := st.heap.length
    ({ st with heap := st.heap ++ [{ newResolverMeta with target := target }],
               siteMeta := setAssoc st.siteMeta (target, key) r }, r)

/-- The fresh child descriptor allocated by `registerParam`:
`depMeta.id = id || param`. -/
def childMeta (p id : Key) : ResolverMeta :=
  { newResolverMeta with id := jsOr id p }

/-- The successful tail of `registerParam`: allocate the child on the heap and
assign `targetMeta.deps[index] = depMeta`. -/
def paramUpdate (st : DState) (index ownerRef : Nat) (p id : Key) : DState :=
  let heap1 := st.heap ++ [childMeta p id]
  let owner := nthD heap1 ownerRef newResolverMeta
  let owner1 := { owner with deps := setIdx owner.deps index st.heap.length }
  { st with heap := setNth heap1 ownerRef owner1 }

/-- `registerParam` from the source. Reading `param.name` off `undefined`
throws a `TypeError`; a simple-named type without an identifier throws the
`requires a custom identifier` error; otherwise a child descriptor is placed
at the parameter position. The `lifeCycle` parameter is accepted and unused,
as in the source. -/
def registerParam (st : DState) (param : Key) (index ownerRef : Nat)
    (lifeCycle : Option LifeCycle) (id : Key) : DState × Option JsErr :=
  if param = Key.undef then (st, some JsErr.typeError)
  else if simpleNamed param && isFalsy id then (st, some JsErr.missingIdentifier)
  else (paramUpdate st index ownerRef param id, none)

/-- The indexed `forEach` of `registerDeps`: fill each parameter position that
is not already occupied (`if (!targetMeta.deps[i])`) from the reflected type,
stopping at the first thrown error (whose mutations persist). -/
def registerDepsGo (ownerRef : Nat) : List Key → Nat → DState → DState × Option JsErr
  | [], _, st => (st, none)
  | p :: rest, i, st =>
    if (getIdx (nthD st.heap ownerRef newResolverMeta).deps i).isSome then
      registerDepsGo ownerRef rest (i + 1) st
    else
      match registerParam st p i ownerRef none Key.undef with
      | (st1, none) => registerDepsGo ownerRef rest (i + 1) st1
      | (st1, some e) => (st1, some e)

/-- `registerDeps` from the source: walk `design:paramtypes` (or `[]` when the
metadata is absent) and place the non-annotated params at their index. -/
def registerDeps (env : ReflectEnv) (st : DState) (ownerRef : Nat)
    (target key : Key) : DState × Option JsErr :=
  registerDepsGo ownerRef ((env.paramtypes target key).getD []) 0 st

/-- The `registry.set(targetMeta.id || target, targetMeta)` tail of the
decorator body. -/
def registrySetTail (st : DState) (r : Nat) (target : Key) : DState :=
  { st with registry := setAssoc st.registry (jsOr (nthD st.heap r newResolverMeta).id target) r }

/-- The common tail of the constructor and factory cases: fill the positional
dependencies with `registerDeps`, then (unless a throw escaped) store the
descriptor in the registry under `id || target`. -/
def declTail (env : ReflectEnv) (st2 : DState) (r : Nat) (target key : Key) :
    DState × Option JsErr :=
  let res := registerDeps env st2 r target key
  match res.2 with
  | some e => (res.1, some e)
  | none => (registrySetTail res.1 r target, none)

/-- The field updates of the `TargeType.CONSTRUCTOR` case: kind `TYPE`,
lifecycle `lifeCycle || current`, target, identifier `id || target`. -/
def ctorUpdate (id : Key) (lifeCycle : Option LifeCycle) (target : Key)
    (st1 : DState) (r : Nat) : DState :=
  let m := nthD st1.heap r newResolverMeta
  let m1 := { m with type := ResolverType.TYPE,
                     lifeCycle := jsOrLC lifeCycle m.lifeCycle,
                     target := target,
                     id := jsOr id target }
  { st1 with heap := setNth st1.heap r m1 }

/-- The `TargeType.CONSTRUCTOR` case of the `switch` in `register`. -/
def registerConstructor (env : ReflectEnv) (id : Key) (lifeCycle : Option LifeCycle)
    (target key : Key) (st : DState) : DState × Option JsErr :=
  let pr := getOrCreateSiteMeta st target key
  declTail env (ctorUpdate id lifeCycle target pr.1 pr.2) pr.2 target key

/-- The `TargeType.PROPERTY` case: the site metadata is looked up on `target`
alone (no key); a fresh child descriptor is appended to the owner's deps, and
when the member already holds a value the child becomes an `INSTANCE` and is
itself put in the registry. The source pushes the child first and then mutates
the same object through the held reference; building the final child first
yields the same final state. -/
def registerProperty (env : ReflectEnv) (id : Key) (target key : Key)
    (st : DState) : DState × Option JsErr :=
  let pr := getOrCreateSiteMeta st target Key.undef
  let st1 := pr.1
  let r := pr.2
  let pv := env.propValue target key
  let depMeta0 := { newResolverMeta with id := id, metaKey := key }
  let depMeta := if pv ≠ Key.undef
    then { depMeta0 with type := ResolverType.INSTANCE, target := pv }
    else depMeta0
  let d := st1.heap.length
  let heap1 := st1.heap ++ [depMeta]
  let owner := nthD heap1 r newResolverMeta
  let heap2 := setNth heap1 r { owner with deps := owner.deps ++ [some d] }
  let st2 := { st1 with heap := heap2 }
  let st3 := if pv ≠ Key.undef
    then { st2 with registry := setAssoc st2.registry depMeta.id d }
    else st2
  (registrySetTail st3 r target, none)

/-- The parameter sub-case of `TargeType.METHOD` (`typeof descriptor ===
'number'`): register the reflected type at the given index and return early —
the `registry.set` tail is skipped. -/
def registerParamDecl (env : ReflectEnv) (id : Key) (lifeCycle : Option LifeCycle)
    (target key : Key) (n : Nat) (st : DState) : DState × Option JsErr :=
  let pr := getOrCreateSiteMeta st target key
  let st1 := pr.1
  let r := pr.2
  let annotated := (env.paramtypes target key).getD []
  registerParam st1 (annotated.getD n Key.undef) n r lifeCycle id

/-- The field updates of the method (factory) sub-case of `TargeType.METHOD`:
kind `FACTORY`, target `descriptor.value`, identifier
`id || design:returntype`. -/
def factoryUpdate (env : ReflectEnv) (id : Key) (lifeCycle : Option LifeCycle)
    (target key : Key) (descriptor : DescArg) (st1 : DState) (r : Nat) : DState :=
  let m := nthD st1.heap r newResolverMeta
  let m1 := { m with type := ResolverType.FACTORY,
                     target := descValue descriptor,
                     lifeCycle := jsOrLC lifeCycle m.lifeCycle,
                     id := jsOr id ((env.returntype target key).getD Key.undef) }
  { st1 with heap := setNth st1.heap r m1 }

/-- The method (factory) sub-case of `TargeType.METHOD`. -/
def registerFactoryDecl (env : ReflectEnv) (id : Key) (lifeCycle : Option LifeCycle)
    (target key : Key) (descriptor : DescArg) (st : DState) : DState × Option JsErr :=
  let pr := getOrCreateSiteMeta st target key
  declTail env (factoryUpdate env id lifeCycle target key descriptor pr.1 pr.2) pr.2 target key

/-- The decorator body returned by `register(id, lifeCycle)`, applied to the
decorator arguments `(target, key, descriptor)` (trailing `undefined`s
popped). Dispatches on the effective argument count — constructor, property,
or method/parameter — exactly as the source `switch` does, with the accessor
override (`descriptor.get || descriptor.set` forces the property case). -/
def register (env : ReflectEnv) (id : Key) (lifeCycle : Option LifeCycle)
    (target key : Key) (descriptor : DescArg) (st : DState) : DState × Option JsErr :=
  let argsLen : Nat := if descriptor ≠ DescArg.undef then 3 else if key ≠ Key.undef then 2 else 1
  let targetType : Nat := if isAccessorDesc descriptor then 2 else argsLen
  if targetType = 1 then
    registerConstructor env id lifeCycle target key st
  else if targetType = 2 then
    registerProperty env id target key st
  else
    match descriptor with
    | DescArg.idx n => registerParamDecl env id lifeCycle target key n st
    | _ => registerFactoryDecl env id lifeCycle target key descriptor st

/- Graph registrar: `registerWithContainer`. -/

/-- One registration recorded in the container: the strategy, the target (or
captured value), the prototype-metadata reference captured by the `TYPE`
producer closure, the positional dependency identifiers (`dep.deps.map(a =>
a.id)`, holes preserved), and the lifecycle. -/
structure RegEvent where
  kind : ResolverType
  target : Key
  protoRef : Option Nat
  depIds : List (Option Key)
  lifeCycle : LifeCycle
  deriving DecidableEq

/-- The external `Opium` container at its interface boundary: constructor
arguments plus the registrations made against it, keyed by identifier
(`getDep` is `lookupA`). -/
structure Container where
  name : Option String
  defaultLifeCycle : Option LifeCycle
  regs : List (Key × RegEvent)
  deriving DecidableEq

/-- `dep.deps.map(a => a.id)`: a sparse map over the deps array. -/
def depIdsOf (heap : List ResolverMeta) (deps : List (Option Nat)) : List (Option Key) :=
  deps.map (fun o => o.map (fun r => (nthD heap r newResolverMeta).id))

/-- Outcome of one iteration of the `while (stack.length)` loop: the loop is
finished (normally or by a throw), or continues with a new stack and
container. -/
inductive StepRes where
  | done : Except JsErr (Option Container) → StepRes
  | next : List (Option Nat) → Option Container → StepRes

/-- One iteration of the loop body of `registerWithContainer`: pop, skip holes
(`if (!depRef) continue`), re-fetch the canonical descriptor from the registry
(`if (!dep) continue`), skip identifiers the container already has, push the
children, and register per kind. The `TYPE` branch also looks up the
prototype-site descriptor and pushes its (property) children. A `null`
container is dereferenced at `container.getDep`. -/
def regStep (registry : List (Key × Nat)) (heap : List ResolverMeta)
    (stack : List (Option Nat)) (c : Option Container) : StepRes :=
  match stack with
  | [] => StepRes.done (Except.ok c)
  | depRef? :: rest =>
    match depRef? with
    | none => StepRes.next rest c
    | some r =>
      let depRef := nthD heap r newResolverMeta
      match lookupA depRef.id registry with
      | none => StepRes.next rest c
      | some depR =>
        match c with
        | none => StepRes.done (Except.error JsErr.nullDeref)
        | some cont =>
          let dep := nthD heap depR newResolverMeta
          if (lookupA dep.id cont.regs).isSome then StepRes.next rest (some cont)
          else
            let stack1 := if dep.deps.length ≠ 0 then dep.deps.reverse ++ rest else rest
            match dep.type with
            | ResolverType.FACTORY =>
              let ev : RegEvent := { kind := ResolverType.FACTORY, target := dep.target,
                                     protoRef := none, depIds := depIdsOf heap dep.deps,
                                     lifeCycle := dep.lifeCycle }
              StepRes.next stack1 (some { cont with regs := cont.regs ++ [(dep.id, ev)] })
            | ResolverType.TYPE =>
              let pr := (protoOf dep.target).bind (fun k => lookupA k registry)
              let stack2 := match pr with
                | some pRef => (nthD heap pRef newResolverMeta).deps.reverse ++ stack1
                | none => stack1
              let ev : RegEvent := { kind := ResolverType.TYPE, target := dep.target,
                                     protoRef := pr, depIds := depIdsOf heap dep.deps,
                                     lifeCycle := dep.lifeCycle }
              StepRes.next stack2 (some { cont with regs := cont.regs ++ [(dep.id, ev)] })
            | ResolverType.INSTANCE =>
              let ev : RegEvent := { kind := ResolverType.INSTANCE, target := dep.target,
                                     protoRef := none, depIds := depIdsOf heap dep.deps,
                                     lifeCycle := dep.lifeCycle }
              StepRes.next stack1 (some { cont with regs := cont.regs ++ [(dep.id, ev)] })

/-- The fuelled `while` loop. `none` means the fuel ran out before the stack
emptied; the real loop always terminates because every non-skipping iteration
registers a previously unregistered identifier. -/
def regLoop (registry : List (Key × Nat)) (heap : List ResolverMeta) :
    Nat → List (Option Nat) → Option Container → Option (Except JsErr (Option Container))
  | 0, stack, c =>
    match regStep registry heap stack c with
    | StepRes.done r => some r
    | StepRes.next _ _ => none
  | fuel + 1, stack, c =>
    match regStep registry heap stack c with
    | StepRes.done r => some r
    | StepRes.next s1 c1 => regLoop registry heap fuel s1 c1

/-- `registerWithContainer(rootDep, container)`: seed the stack with the root
descriptor reference (`none` models pushing `undefined`). -/
def registerWithContainer (registry : List (Key × Nat)) (heap : List ResolverMeta)
    (fuel : Nat) (root : Option Nat) (c : Option Container) :
    Option (Except JsErr (Option Container)) :=
  regLoop registry heap fuel [root] c

/- Injection session. -/

/-- What `getInjectable` produces on success: the handle (`container.getDep`
of the root identifier, possibly `undefined`), the container the handle came
from, and the module-level session pointer after the call. -/
structure InjectableResult where
  handle : Option RegEvent
  finalContainer : Container
  session : Option Container
  deriving DecidableEq

/-- `injectableFactory(name, lifeCycle)` builds the fresh session container. -/
def injectableFactory (name : Option String) (lifeCycle : Option LifeCycle) : Container :=
  { name := name, defaultLifeCycle := lifeCycle, regs := [] }

/-- `getInjectable(target, key)`: fetch the site descriptor, run
`registerWithContainer` against the current session container, ask the
container for the root identifier's handle, clear the session pointer, and
return the handle. A missing site descriptor makes `depMeta.id` throw a
`TypeError`; a `null` session container is dereferenced at `getDep`. -/
def getInjectable (ds : DState) (sess : Option Container) (target key : Key)
    (fuel : Nat) : Option (Except JsErr InjectableResult) :=
  match lookupA (target, key) ds.siteMeta with
  | none =>
    match registerWithContainer ds.registry ds.heap fuel none sess with
    | none => none
    | some (Except.error e) => some (Except.error e)
    | some (Except.ok none) => some (Except.error JsErr.nullDeref)
    | some (Except.ok (some _)) => some (Except.error JsErr.typeError)
  | some r =>
    match registerWithContainer ds.registry ds.heap fuel (some r) sess with
    | none => none
    | some (Except.error e) => some (Except.error e)
    | some (Except.ok none) => some (Except.error JsErr.nullDeref)
    | some (Except.ok (some cont)) =>
      some (Except.ok { handle := lookupA (nthD ds.heap r newResolverMeta).id cont.regs,
                        finalContainer := cont,
                        session := none })

/- The TYPE producer closure and runtime values. -/

/-- Runtime instances produced by the `TYPE` producer: the constructed object,
its constructor arguments, and the property assignments performed on it. -/
inductive Value where
  | obj : Key → List Value → List (Key × Value) → Value

/-- The property assignments carried by an instance. -/
def Value.props : Value → List (Key × Value)
  | Value.obj _ _ ps => ps

/-- The `Promise.all` over the property children of the prototype descriptor:
resolve each child identifier through the container
(`container.getDep(d.id).injectDeps()` / `await dep.injected`, abstracted as
`resolve`) and pair it with its `metaKey`. A single rejection rejects the
whole collection; `Promise.all`'s concurrent issuance is modelled as
collection in input order, which is observationally equal for the producer's
result. -/
def resolveProps (heap : List ResolverMeta) (resolve : Key → Except JsErr Value) :
    List Nat → Except JsErr (List (Key × Value))
  | [] => Except.ok []
  | r :: rest =>
    let d := nthD heap r newResolverMeta
    match resolve d.id with
    | Except.error e => Except.error e
    | Except.ok v =>
      match resolveProps heap resolve rest with
      | Except.error e => Except.error e
      | Except.ok tail => Except.ok ((d.metaKey, v) :: tail)

/-- The producer registered for a `TYPE` descriptor (the async closure at the
heart of `registerWithContainer`): construct the target from the positional
arguments, then resolve every property child of the captured prototype
descriptor and assign each under its `metaKey`; only a fully populated
instance is returned. Holes of the sparse deps array are skipped by the JS
`map`. -/
def typeProducer (heap : List ResolverMeta) (protoMeta : Option ResolverMeta)
    (target : Key) (resolve : Key → Except JsErr Value) (args : List Value) :
    Except JsErr Value :=
  let propRefs := match protoMeta with
    | none => []
    | some m => m.deps.filterMap (fun o => o)
  match resolveProps heap resolve propRefs with
  | Except.error e => Except.error e
  | Except.ok props => Except.ok (Value.obj target args props)

/-- Dispatch a recorded registration to its producer. Only the `TYPE` kind has
a producer built by this repository; the other kinds delegate to the external
container and are represented by their event alone. -/
def runProducer (heap : List ResolverMeta) (ev : RegEvent)
    (resolve : Key → Except JsErr Value) (args : List Value) : Option (Except JsErr Value) :=
  match ev.kind with
  | ResolverType.TYPE =>
    some (typeProducer heap (ev.protoRef.map (fun r => nthD heap r newResolverMeta))
      ev.target resolve args)
  | _ => none

/- `inject`: the implicit trigger. -/

/-- The synchronous phase of the decorator returned by `inject(id, name,
lifeCycle)`: begin a session, run `register(id)` on the decorator arguments,
then `getInjectable(target, key)`. `outcome` is the synchronously observable
result (a thrown error or the obtained handle). -/
structure InjectSyncResult where
  state : DState
  outcome : Except JsErr InjectableResult

/-- The synchronous phase of `inject`'s decorator. `none` only when the
traversal fuel ran out. -/
def injectSync (env : ReflectEnv) (id : Key) (name : Option String)
    (lifeCycle : Option LifeCycle) (ds : DState) (target key : Key)
    (descriptor : DescArg) (fuel : Nat) : Option InjectSyncResult :=
  let sess := some (injectableFactory name lifeCycle)
  let res := register env id none target key descriptor ds
  match res.2 with
  | some e => some { state := res.1, outcome := Except.error e }
  | none =>
    match getInjectable res.1 sess target key fuel with
    | none => none
    | some (Except.error e) => some { state := res.1, outcome := Except.error e }
    | some (Except.ok r) => some { state := res.1, outcome := Except.ok r }

/-- The `nextTick` callback: `try { await injectable.inject(); container =
null } catch (e) { debug(e); return Promise.reject(e) }`. Its input is the
eventual outcome of the deferred resolution; its output is the session
pointer afterwards, the errors written to the `debug` side channel, and the
promise the callback returns — which `nextTick` discards, so a rejection
there reaches no caller. -/
def injectDeferred (sess : Option Container) (injectResult : Except JsErr Value) :
    Option Container × List JsErr × Except JsErr Unit :=
  match injectResult with
  | Except.ok _ => (none, [], Except.ok ())
  | Except.error e => (sess, [e], Except.error e)

/-- The whole `inject` pipeline: the synchronous phase, and — only when it
succeeded, since otherwise the throw happens before `nextTick` is reached —
the deferred task applied to the eventual resolution outcome. -/
def injectRun (env : ReflectEnv) (id : Key) (name : Option String)
    (lifeCycle : Option LifeCycle) (ds : DState) (target key : Key)
    (descriptor : DescArg) (fuel : Nat) (injectResult : Except JsErr Value) :
    Option (InjectSyncResult × Option (Option Container × List JsErr × Except JsErr Unit)) :=
  match injectSync env id name lifeCycle ds target key descriptor fuel with
  | none => none
  | some s =>
    match s.outcome with
    | Except.ok r => some (s, some (injectDeferred r.session injectResult))
    | Except.error _ => some (s, none)

/-- Whether `registerParam` with no explicit identifier throws for this
reflected parameter type: the type is absent (`TypeError`) or carries a
simple/primitive name (`MissingIdentifierError`). -/
def paramFails (p : Key) : Bool := decide (p = Key.undef) || simpleNamed p

/-- Everything `registerDepsGo` preserves about the state and the owner. -/
def FrameLe (st st1 : DState) (r : Nat) : Prop :=
  st1.siteMeta = st.siteMeta ∧ st1.registry = st.registry ∧
  st.heap.length ≤ st1.heap.length ∧
  (nthD st1.heap r newResolverMeta).lifeCycle = (nthD st.heap r newResolverMeta).lifeCycle ∧
  (nthD st1.heap r newResolverMeta).type = (nthD st.heap r newResolverMeta).type ∧
  (nthD st1.heap r newResolverMeta).id = (nthD st.heap r newResolverMeta).id ∧
  (nthD st1.heap r newResolverMeta).target = (nthD st.heap r newResolverMeta).target ∧
  ∀ j, (getIdx (nthD st.heap r newResolverMeta).deps j).isSome = true →
       (getIdx (nthD st1.heap r newResolverMeta).deps j).isSome = true

/- Declarations sequences, site helpers, and a concrete scenario. -/

/-- One declaration event (the decorator's own arguments plus the call-site
arguments), for properties of arbitrary declaration sequences. -/
structure DeclCall where
  id : Key
  lifeCycle : Option LifeCycle
  target : Key
  key : Key
  descriptor : DescArg

/-- Apply a sequence of declarations left to right; as in the source, a
throwing declaration leaves its mutations behind. -/
def applyCalls (env : ReflectEnv) : List DeclCall → DState → DState
  | [], st => st
  | c :: rest, st =>
    applyCalls env rest (register env c.id c.lifeCycle c.target c.key c.descriptor st).1

/-- The heap reference stored for a declaration site is in range (vacuous when
the site has no metadata yet); an invariant of every state reachable by
declarations. -/
def siteRefOk (st : DState) (target key : Key) : Prop :=
  match lookupA (target, key) st.siteMeta with
  | some r => r < st.heap.length
  | none => True

/-- The `deps` array of the descriptor stored at a declaration site (empty
when the site has no metadata). -/
def siteDeps (st : DState) (target key : Key) : List (Option Nat) :=
  match lookupA (target, key) st.siteMeta with
  | some r => (nthD st.heap r newResolverMeta).deps
  | none => []

/-- Reflection environment of the concrete scenario: class `App` has one
constructor parameter of class `Db`; `Db` has none. -/
def wEnv : ReflectEnv :=
  { paramtypes := fun t k =>
      if t = Key.cls 0 "App" ∧ k = Key.undef then some [Key.cls 1 "Db"]
      else if t = Key.cls 1 "Db" ∧ k = Key.undef then some []
      else none,
    returntype := fun _ _ => none,
    propValue := fun _ _ => Key.undef }

/-- The empty declaration state. -/
def wSt0 : DState := { heap := [], siteMeta := [], registry := [] }

/-- State after declaring `App`. -/
def wStA : DState :=
  (register wEnv Key.undef none (Key.cls 0 "App") Key.undef DescArg.undef wSt0).1

/-- State after declaring `App` and `Db`. -/
def wStB : DState :=
  (register wEnv Key.undef none (Key.cls 1 "Db") Key.undef DescArg.undef wStA).1

/-- The fresh session container of the scenario. -/
def wCont : Container := injectableFactory none none

/-- The registration event the traversal makes for `App`. -/
def wEvApp : RegEvent :=
  { kind := ResolverType.TYPE, target := Key.cls 0 "App", protoRef := none,
    depIds := [some (Key.cls 1 "Db")], lifeCycle := LifeCycle.SINGLETON }

/-- The registration event the traversal makes for `Db`. -/
def wEvDb : RegEvent :=
  { kind := ResolverType.TYPE, target := Key.cls 1 "Db", protoRef := none,
    depIds := [], lifeCycle := LifeCycle.SINGLETON }

/-- The container after registering the `App` graph. -/
def wContFinal : Container :=
  { name := none, defaultLifeCycle := none,
    regs := [(Key.cls 0 "App", wEvApp), (Key.cls 1 "Db", wEvDb)] }

/-- The result of resolving `App` through the session. -/
def wRes : InjectableResult :=
  { handle := some wEvApp, finalContainer := wContFinal, session := none }

/-- Environment with absent paramtypes metadata (unreflectable parameter). -/
def env3cex : ReflectEnv :=
  { paramtypes := fun _ _ => none, returntype := fun _ _ => none,
    propValue := fun _ _ => Key.undef }

/-- Environment reflecting one `Number`-typed parameter. -/
def env3w : ReflectEnv :=
  { paramtypes := fun _ _ => some [Key.prim "Number"], returntype := fun _ _ => none,
    propValue := fun _ _ => Key.undef }

/-- Environment for a parameterless factory whose reflected return type is the
primitive `Number`. -/
def env5p : ReflectEnv :=
  { paramtypes := fun _ _ => some [], returntype := fun _ _ => some (Key.prim "Number"),
    propValue := fun _ _ => Key.undef }

/-- Environment for a parameterless factory with no reflected return type. -/
def env5n : ReflectEnv :=
  { paramtypes := fun _ _ => some [], returntype := fun _ _ => none,
    propValue := fun _ _ => Key.undef }

/- Lemmas about the association-list and sparse-array primitives. -/

section ListLemmas

variable {α : Type u} {β : Type v} [DecidableEq α]

theorem lookupA_setAssoc_self (l : List (α × β)) (k : α) (x : β) :
    lookupA k (setAssoc l k x) = some x := by
  induction l with
  | nil => simp [setAssoc, lookupA]
  | cons p t ih =>
    obtain ⟨a, b⟩ := p
    by_cases h : a = k
    · subst h; simp [setAssoc, lookupA]
    · simp [setAssoc, lookupA, h, ih]

theorem lookupA_none_not_mem (l : List (α × β)) (k : α) :
    lookupA k l = none → k ∉ l.map Prod.fst := by
  induction l with
  | nil => simp
  | cons p t ih =>
    obtain ⟨a, b⟩ := p
    by_cases h : a = k
    · subst h; simp [lookupA]
    · intro hl
      simp only [lookupA, if_neg h] at hl
      simp only [List.map_cons, List.mem_cons]
      rintro (hk | hk)
      · exact h hk.symm
      · exact ih hl hk

theorem keys_setAssoc_hit (l : List (α × β)) (k : α) (x : β)
    (h : (lookupA k l).isSome) :
    (setAssoc l k x).map Prod.fst = l.map Prod.fst := by
  induction l with
  | nil => simp [lookupA] at h
  | cons p t ih =>
    obtain ⟨a, b⟩ := p
    by_cases ha : a = k
    · subst ha; simp [setAssoc]
    · simp only [lookupA, if_neg ha] at h
      simp [setAssoc, ha, ih h]

theorem keys_setAssoc_new (l : List (α × β)) (k : α) (x : β)
    (h : lookupA k l = none) :
    (setAssoc l k x).map Prod.fst = l.map Prod.fst ++ [k] := by
  induction l with
  | nil => simp [setAssoc]
  | cons p t ih =>
    obtain ⟨a, b⟩ := p
    by_cases ha : a = k
    · subst ha; simp [lookupA] at h
    · simp only [lookupA, if_neg ha] at h
      simp [setAssoc, ha, ih h]

theorem nodup_concat {γ : Type u} (l : List γ) (a : γ) (h : l.Nodup) (ha : a ∉ l) :
    (l ++ [a]).Nodup := by
  rw [List.nodup_append]
  refine ⟨h, List.nodup_singleton a, ?_⟩
  intro x hx hx'
  simp at hx'
  subst hx'
  exact ha hx

theorem nodup_keys_setAssoc (l : List (α × β)) (k : α) (x : β) :
    ((l.map Prod.fst).Nodup) → (((setAssoc l k x).map Prod.fst).Nodup) := by
  intro hnd
  cases h : lookupA k l with
  | some b => rw [keys_setAssoc_hit l k x (by simp [h])]; exact hnd
  | none =>
    rw [keys_setAssoc_new l k x h]
    exact nodup_concat _ _ hnd (lookupA_none_not_mem l k h)

end ListLemmas

section SparseLemmas

variable {α : Type u}

theorem length_setNth (l : List α) (n : Nat) (x : α) :
    (setNth l n x).length = l.length := by
  induction l generalizing n with
  | nil => simp [setNth]
  | cons a t ih =>
    cases n with
    | zero => simp [setNth]
    | succ m => simp [setNth, ih]

theorem nthD_setNth_self (l : List α) (n : Nat) (x d : α) (h : n < l.length) :
    nthD (setNth l n x) n d = x := by
  induction l generalizing n with
  | nil => simp at h
  | cons a t ih =>
    cases n with
    | zero => simp [setNth, nthD]
    | succ m =>
      simp [setNth, nthD]
      exact ih m (by simpa using h)

theorem nthD_setNth_ne (l : List α) (n m : Nat) (x d : α) (h : n ≠ m) :
    nthD (setNth l n x) m d = nthD l m d := by
  induction l generalizing n m with
  | nil => simp [setNth]
  | cons a t ih =>
    cases n with
    | zero =>
      cases m with
      | zero => exact absurd rfl h
      | succ j => simp [setNth, nthD]
    | succ i =>
      cases m with
      | zero => simp [setNth, nthD]
      | succ j => simp [setNth, nthD]; exact ih i j (by omega)

theorem nthD_append_left (l l' : List α) (n : Nat) (d : α) (h : n < l.length) :
    nthD (l ++ l') n d = nthD l n d := by
  induction l generalizing n with
  | nil => simp at h
  | cons a t ih =>
    cases n with
    | zero => simp [nthD]
    | succ m => simp [nthD]; exact ih m (by simpa using h)

theorem nthD_append_self (l : List α) (x d : α) :
    nthD (l ++ [x]) l.length d = x := by
  induction l with
  | nil => simp [nthD]
  | cons a t ih => simpa [nthD] using ih

theorem getIdx_setIdx_self (l : List (Option α)) (i : Nat) (x : α) :
    getIdx (setIdx l i x) i = some x := by
  induction l generalizing i with
  | nil =>
    induction i with
    | zero => simp [setIdx, getIdx]
    | succ j ihj => simpa [setIdx, getIdx] using ihj
  | cons a t ih =>
    cases i with
    | zero => simp [setIdx, getIdx]
    | succ j => simp [setIdx, getIdx]; exact ih j

theorem getIdx_setIdx_ne (l : List (Option α)) (i j : Nat) (x : α) (h : i ≠ j) :
    getIdx (setIdx l i x) j = getIdx l j := by
  induction l generalizing i j with
  | nil =>
    induction i generalizing j with
    | zero =>
      cases j with
      | zero => exact absurd rfl h
      | succ m => simp [setIdx, getIdx]
    | succ n ihn =>
      cases j with
      | zero => simp [setIdx, getIdx]
      | succ m => simp [setIdx, getIdx]; exact ihn m (by omega)
  | cons a t ih =>
    cases i with
    | zero =>
      cases j with
      | zero => exact absurd rfl h
      | succ m => simp [setIdx, getIdx]
    | succ n =>
      cases j with
      | zero => simp [setIdx, getIdx]
      | succ m => simp [setIdx, getIdx]; exact ih n m (by omega)

end SparseLemmas

/- Effect lemmas for the descriptor builder. -/

/-- Case analysis of `registerParam`'s three outcomes. -/
theorem registerParam_cases (st : DState) (p : Key) (i r : Nat)
    (lc : Option LifeCycle) (id : Key) :
    (registerParam st p i r lc id = (st, some JsErr.typeError) ∧ p = Key.undef) ∨
    (registerParam st p i r lc id = (st, some JsErr.missingIdentifier) ∧
      p ≠ Key.undef ∧ (simpleNamed p && isFalsy id) = true) ∨
    (registerParam st p i r lc id = (paramUpdate st i r p id, none) ∧
      p ≠ Key.undef ∧ (simpleNamed p && isFalsy id) = false) := by
  by_cases h1 : p = Key.undef
  · exact Or.inl ⟨by simp [registerParam, h1], h1⟩
  · by_cases h2 : (simpleNamed p && isFalsy id) = true
    · exact Or.inr (Or.inl ⟨by simp [registerParam, h1, h2], h1, h2⟩)
    · have h2' : (simpleNamed p && isFalsy id) = false := by simpa using h2
      exact Or.inr (Or.inr ⟨by simp [registerParam, h1, h2'], h1, h2'⟩)

theorem registerParam_noId_err (st : DState) (p : Key) (i r : Nat)
    (h : paramFails p = true) :
    ∃ e, registerParam st p i r none Key.undef = (st, some e) := by
  rcases registerParam_cases st p i r none Key.undef with ⟨he, _⟩ | ⟨he, _⟩ | ⟨he, hne, hcond⟩
  · exact ⟨JsErr.typeError, he⟩
  · exact ⟨JsErr.missingIdentifier, he⟩
  · exfalso
    have hc : simpleNamed p = false := by simpa [isFalsy] using hcond
    simp [paramFails, hne, hc] at h

theorem registerParam_noId_ok (st : DState) (p : Key) (i r : Nat)
    (h : paramFails p = false) :
    registerParam st p i r none Key.undef = (paramUpdate st i r p Key.undef, none) := by
  simp [paramFails] at h
  simp [registerParam, h.1, h.2, isFalsy]

/-- Reading the owner after `paramUpdate`: its `deps` gained the child
reference at `index`, nothing else changed. -/
theorem paramUpdate_owner (st : DState) (index r : Nat) (p id : Key)
    (hr : r < st.heap.length) :
    nthD (paramUpdate st index r p id).heap r newResolverMeta
      = { nthD st.heap r newResolverMeta with
          deps := setIdx (nthD st.heap r newResolverMeta).deps index st.heap.length } := by
  unfold paramUpdate
  rw [nthD_setNth_self _ _ _ _ (by simpa [length_setNth] using Nat.lt_succ_of_lt hr),
    nthD_append_left _ _ _ _ hr]

theorem paramUpdate_length (st : DState) (index r : Nat) (p id : Key) :
    (paramUpdate st index r p id).heap.length = st.heap.length + 1 := by
  simp [paramUpdate, length_setNth]

/-- Reading the freshly allocated child after `paramUpdate`. -/
theorem paramUpdate_child (st : DState) (index r : Nat) (p id : Key) (pos : Nat)
    (hr : r < st.heap.length) (hpos : pos = st.heap.length) :
    nthD (paramUpdate st index r p id).heap pos newResolverMeta = childMeta p id := by
  subst hpos
  simp only [paramUpdate]
  rw [nthD_setNth_ne _ _ _ _ _ (by omega)]
  exact nthD_append_self _ _ _

theorem frameLe_refl (st : DState) (r : Nat) : FrameLe st st r :=
  ⟨rfl, rfl, Nat.le_refl _, rfl, rfl, rfl, rfl, fun _ h => h⟩

theorem frameLe_trans {st1 st2 st3 : DState} {r : Nat}
    (h1 : FrameLe st1 st2 r) (h2 : FrameLe st2 st3 r) : FrameLe st1 st3 r := by
  obtain ⟨a1, b1, c1, d1, e1, f1, g1, i1⟩ := h1
  obtain ⟨a2, b2, c2, d2, e2, f2, g2, i2⟩ := h2
  exact ⟨a2.trans a1, b2.trans b1, c1.trans c2, d2.trans d1, e2.trans e1,
    f2.trans f1, g2.trans g1, fun j hj => i2 j (i1 j hj)⟩

theorem paramUpdate_frame (st : DState) (index r : Nat) (p id : Key)
    (hr : r < st.heap.length) : FrameLe st (paramUpdate st index r p id) r := by
  refine ⟨rfl, rfl, ?_, ?_, ?_, ?_, ?_, ?_⟩
  · rw [paramUpdate_length]; exact Nat.le_succ _
  · rw [paramUpdate_owner st index r p id hr]
  · rw [paramUpdate_owner st index r p id hr]
  · rw [paramUpdate_owner st index r p id hr]
  · rw [paramUpdate_owner st index r p id hr]
  · intro j hj
    rw [paramUpdate_owner st index r p id hr]
    by_cases hij : index = j
    · subst hij; simp [getIdx_setIdx_self]
    · simpa [getIdx_setIdx_ne _ _ _ _ hij] using hj

theorem registerDepsGo_nil (r i : Nat) (st : DState) :
    registerDepsGo r [] i st = (st, none) := rfl

theorem registerDepsGo_cons_skip (r : Nat) (p : Key) (rest : List Key) (i : Nat)
    (st : DState)
    (hf : (getIdx (nthD st.heap r newResolverMeta).deps i).isSome = true) :
    registerDepsGo r (p :: rest) i st = registerDepsGo r rest (i + 1) st := by
  simp only [registerDepsGo, hf, if_true]

theorem registerDepsGo_cons_err (r : Nat) (p : Key) (rest : List Key) (i : Nat)
    (st st1 : DState) (e : JsErr)
    (hf : (getIdx (nthD st.heap r newResolverMeta).deps i).isSome = false)
    (he : registerParam st p i r none Key.undef = (st1, some e)) :
    registerDepsGo r (p :: rest) i st = (st1, some e) := by
  have hf' : ¬ ((getIdx (nthD st.heap r newResolverMeta).deps i).isSome = true) := by
    simp [hf]
  simp only [registerDepsGo, if_neg hf', he]

theorem registerDepsGo_cons_ok (r : Nat) (p : Key) (rest : List Key) (i : Nat)
    (st st1 : DState)
    (hf : (getIdx (nthD st.heap r newResolverMeta).deps i).isSome = false)
    (he : registerParam st p i r none Key.undef = (st1, none)) :
    registerDepsGo r (p :: rest) i st = registerDepsGo r rest (i + 1) st1 := by
  have hf' : ¬ ((getIdx (nthD st.heap r newResolverMeta).deps i).isSome = true) := by
    simp [hf]
  simp only [registerDepsGo, if_neg hf', he]

theorem registerDepsGo_frame (r : Nat) :
    ∀ (ps : List Key) (i : Nat) (st : DState), r < st.heap.length →
      FrameLe st (registerDepsGo r ps i st).1 r := by
  intro ps
  induction ps with
  | nil => intro i st _; exact frameLe_refl st r
  | cons p rest ih =>
    intro i st hr
    by_cases hf : (getIdx (nthD st.heap r newResolverMeta).deps i).isSome = true
    · rw [registerDepsGo_cons_skip r p rest i st hf]
      exact ih (i + 1) st hr
    · have hf' : (getIdx (nthD st.heap r newResolverMeta).deps i).isSome = false := by
        simpa using hf
      rcases registerParam_cases st p i r none Key.undef with
        ⟨he, _⟩ | ⟨he, _, _⟩ | ⟨he, _, _⟩
      · rw [registerDepsGo_cons_err r p rest i st st JsErr.typeError hf' he]
        exact frameLe_refl st r
      · rw [registerDepsGo_cons_err r p rest i st st JsErr.missingIdentifier hf' he]
        exact frameLe_refl st r
      · rw [registerDepsGo_cons_ok r p rest i st (paramUpdate st i r p Key.undef) hf' he]
        have hr1 : r < (paramUpdate st i r p Key.undef).heap.length := by
          rw [paramUpdate_length]; exact Nat.lt_succ_of_lt hr
        exact frameLe_trans (paramUpdate_frame st i r p Key.undef hr)
          (ih (i + 1) (paramUpdate st i r p Key.undef) hr1)

theorem registerDepsGo_fills (r : Nat) :
    ∀ (ps : List Key) (i : Nat) (st st1 : DState),
      registerDepsGo r ps i st = (st1, none) → r < st.heap.length →
      ∀ k, k < ps.length →
        (getIdx (nthD st1.heap r newResolverMeta).deps (i + k)).isSome = true := by
  intro ps
  induction ps with
  | nil => intro i st st1 _ _ k hk; simp at hk
  | cons p rest ih =>
    intro i st st1 hgo hr k hk
    by_cases hf : (getIdx (nthD st.heap r newResolverMeta).deps i).isSome = true
    · rw [registerDepsGo_cons_skip r p rest i st hf] at hgo
      cases k with
      | zero =>
        have hfr := registerDepsGo_frame r rest (i + 1) st hr
        rw [hgo] at hfr
        simpa using hfr.2.2.2.2.2.2.2 i hf
      | succ k1 =>
        have harith : i + (k1 + 1) = (i + 1) + k1 := by omega
        rw [harith]
        exact ih (i + 1) st st1 hgo hr k1 (by simpa using hk)
    · have hf' : (getIdx (nthD st.heap r newResolverMeta).deps i).isSome = false := by
        simpa using hf
      rcases registerParam_cases st p i r none Key.undef with
        ⟨he, _⟩ | ⟨he, _, _⟩ | ⟨he, _, _⟩
      · rw [registerDepsGo_cons_err r p rest i st st JsErr.typeError hf' he] at hgo
        simp at hgo
      · rw [registerDepsGo_cons_err r p rest i st st JsErr.missingIdentifier hf' he] at hgo
        simp at hgo
      · rw [registerDepsGo_cons_ok r p rest i st (paramUpdate st i r p Key.undef) hf' he] at hgo
        have hr1 : r < (paramUpdate st i r p Key.undef).heap.length := by
          rw [paramUpdate_length]; exact Nat.lt_succ_of_lt hr
        cases k with
        | zero =>
          have hfr := registerDepsGo_frame r rest (i + 1) (paramUpdate st i r p Key.undef) hr1
          rw [hgo] at hfr
          refine hfr.2.2.2.2.2.2.2 i ?_
          rw [paramUpdate_owner st i r p Key.undef hr]
          simp [getIdx_setIdx_self]
        | succ k1 =>
          have harith : i + (k1 + 1) = (i + 1) + k1 := by omega
          rw [harith]
          exact ih (i + 1) (paramUpdate st i r p Key.undef) st1 hgo hr1 k1 (by simpa using hk)

theorem registerDepsGo_filled (r : Nat) :
    ∀ (ps : List Key) (i : Nat) (st : DState),
      (∀ k, k < ps.length →
        (getIdx (nthD st.heap r newResolverMeta).deps (i + k)).isSome = true) →
      registerDepsGo r ps i st = (st, none) := by
  intro ps
  induction ps with
  | nil => intro i st _; rfl
  | cons p rest ih =>
    intro i st hfilled
    have h0 : (getIdx (nthD st.heap r newResolverMeta).deps i).isSome = true := by
      simpa using hfilled 0 (by simp)
    rw [registerDepsGo_cons_skip r p rest i st h0]
    exact ih (i + 1) st (fun k hk => by
      have harith : (i + 1) + k = i + (k + 1) := by omega
      rw [harith]
      exact hfilled (k + 1) (by simpa using hk))

theorem registerDepsGo_fails (r : Nat) :
    ∀ (ps : List Key) (i : Nat) (st : DState), r < st.heap.length →
      (∃ k, k < ps.length ∧
        getIdx (nthD st.heap r newResolverMeta).deps (i + k) = none ∧
        paramFails (ps.getD k Key.undef) = true) →
      (registerDepsGo r ps i st).2.isSome = true := by
  intro ps
  induction ps with
  | nil => intro i st _ hbad; obtain ⟨k, hk, _⟩ := hbad; simp at hk
  | cons p rest ih =>
    intro i st hr hbad
    obtain ⟨k, hk, hnone, hfail⟩ := hbad
    by_cases hf : (getIdx (nthD st.heap r newResolverMeta).deps i).isSome = true
    · cases k with
      | zero => simp at hnone; rw [hnone] at hf; simp at hf
      | succ k1 =>
        rw [registerDepsGo_cons_skip r p rest i st hf]
        refine ih (i + 1) st hr ⟨k1, by simpa using hk, ?_, by simpa using hfail⟩
        have harith : (i + 1) + k1 = i + (k1 + 1) := by omega
        rw [harith]
        exact hnone
    · have hf' : (getIdx (nthD st.heap r newResolverMeta).deps i).isSome = false := by
        simpa using hf
      by_cases hp : paramFails p = true
      · obtain ⟨e, he⟩ := registerParam_noId_err st p i r hp
        rw [registerDepsGo_cons_err r p rest i st st e hf' he]
        rfl
      · have hp' : paramFails p = false := by simpa using hp
        have he := registerParam_noId_ok st p i r hp'
        have hr1 : r < (paramUpdate st i r p Key.undef).heap.length := by
          rw [paramUpdate_length]; exact Nat.lt_succ_of_lt hr
        cases k with
        | zero => simp at hfail; rw [hfail] at hp'; simp at hp'
        | succ k1 =>
          have hnone1 : getIdx (nthD (paramUpdate st i r p Key.undef).heap r
              newResolverMeta).deps ((i + 1) + k1) = none := by
            rw [paramUpdate_owner st i r p Key.undef hr]
            have hne : i ≠ (i + 1) + k1 := by omega
            simp only []
            rw [getIdx_setIdx_ne _ _ _ _ hne]
            have harith : (i + 1) + k1 = i + (k1 + 1) := by omega
            rw [harith]
            exact hnone
          rw [registerDepsGo_cons_ok r p rest i st (paramUpdate st i r p Key.undef) hf' he]
          exact ih (i + 1) (paramUpdate st i r p Key.undef) hr1
            ⟨k1, by simpa using hk, hnone1, by simpa using hfail⟩

/-- `getOrCreateSiteMeta` on a hit returns the stored reference unchanged. -/
theorem getOrCreate_hit (st : DState) (t k : Key) (r : Nat)
    (h : lookupA (t, k) st.siteMeta = some r) :
    getOrCreateSiteMeta st t k = (st, r) := by
  simp [getOrCreateSiteMeta, h]

/-- `getOrCreateSiteMeta` on a miss allocates at the end of the heap and
defines the site metadata. -/
theorem getOrCreate_miss (st : DState) (t k : Key)
    (h : lookupA (t, k) st.siteMeta = none) :
    getOrCreateSiteMeta st t k =
      ({ st with heap := st.heap ++ [{ newResolverMeta with target := t }],
                 siteMeta := setAssoc st.siteMeta (t, k) st.heap.length },
       st.heap.length) := by
  simp [getOrCreateSiteMeta, h]

/- Dispatch lemmas: the decorator-argument shapes select the `switch` cases. -/

theorem register_ctor_eq (env : ReflectEnv) (id : Key) (lc : Option LifeCycle)
    (target : Key) (st : DState) :
    register env id lc target Key.undef DescArg.undef st
      = registerConstructor env id lc target Key.undef st := rfl

theorem register_prop_eq (env : ReflectEnv) (id : Key) (lc : Option LifeCycle)
    (target key : Key) (st : DState) (hk : key ≠ Key.undef) :
    register env id lc target key DescArg.undef st
      = registerProperty env id target key st := by
  simp [register, isAccessorDesc, hk]

theorem register_param_eq (env : ReflectEnv) (id : Key) (lc : Option LifeCycle)
    (target key : Key) (n : Nat) (st : DState) :
    register env id lc target key (DescArg.idx n) st
      = registerParamDecl env id lc target key n st := rfl

theorem register_factory_eq (env : ReflectEnv) (id : Key) (lc : Option LifeCycle)
    (target key v : Key) (st : DState) :
    register env id lc target key (DescArg.desc false v) st
      = registerFactoryDecl env id lc target key (DescArg.desc false v) st := rfl

/- Invariants of one step of the registrar loop. -/

theorem regStep_done_of_some (registry : List (Key × Nat)) (heap : List ResolverMeta)
    (stack : List (Option Nat)) (cont : Container)
    (r : Except JsErr (Option Container))
    (h : regStep registry heap stack (some cont) = StepRes.done r) :
    stack = [] ∧ r = Except.ok (some cont) := by
  cases stack with
  | nil =>
    refine ⟨rfl, ?_⟩
    simpa [regStep] using h.symm
  | cons depRef? rest =>
    exfalso
    cases depRef? with
    | none => simp [regStep] at h
    | some dr =>
      cases hl : lookupA (nthD heap dr newResolverMeta).id registry with
      | none => simp [regStep, hl] at h
      | some depR =>
        by_cases hreg : (lookupA (nthD heap depR newResolverMeta).id cont.regs).isSome = true
        · simp [regStep, hl, hreg] at h
        · have hreg' : (lookupA (nthD heap depR newResolverMeta).id cont.regs).isSome = false := by
            simpa using hreg
          cases ht : (nthD heap depR newResolverMeta).type <;>
            simp [regStep, hl, hreg', ht] at h

theorem regStep_next_of_some (registry : List (Key × Nat)) (heap : List ResolverMeta)
    (stack : List (Option Nat)) (cont : Container)
    (s1 : List (Option Nat)) (c1 : Option Container)
    (h : regStep registry heap stack (some cont) = StepRes.next s1 c1) :
    ∃ cont1, c1 = some cont1 ∧ cont.regs <+: cont1.regs ∧
      ((cont.regs.map Prod.fst).Nodup → (cont1.regs.map Prod.fst).Nodup) := by
  cases stack with
  | nil => simp [regStep] at h
  | cons depRef? rest =>
    cases depRef? with
    | none =>
      simp [regStep] at h
      exact ⟨cont, h.2.symm, List.prefix_refl _, fun hn => hn⟩
    | some dr =>
      cases hl : lookupA (nthD heap dr newResolverMeta).id registry with
      | none =>
        simp [regStep, hl] at h
        exact ⟨cont, h.2.symm, List.prefix_refl _, fun hn => hn⟩
      | some depR =>
        by_cases hreg : (lookupA (nthD heap depR newResolverMeta).id cont.regs).isSome = true
        · simp [regStep, hl, hreg] at h
          exact ⟨cont, h.2.symm, List.prefix_refl _, fun hn => hn⟩
        · have hreg' : (lookupA (nthD heap depR newResolverMeta).id cont.regs).isSome = false := by
            simpa using hreg
          have hnotmem := lookupA_none_not_mem cont.regs (nthD heap depR newResolverMeta).id
            (by cases hx : lookupA (nthD heap depR newResolverMeta).id cont.regs with
                | none => rfl
                | some y => rw [hx] at hreg'; simp at hreg')
          cases ht : (nthD heap depR newResolverMeta).type with
          | TYPE =>
            simp [regStep, hl, hreg', ht] at h
            refine ⟨_, h.2.symm, List.prefix_append _ _, fun hn => ?_⟩
            rw [List.map_append]
            exact nodup_concat _ _ hn hnotmem
          | FACTORY =>
            simp [regStep, hl, hreg', ht] at h
            refine ⟨_, h.2.symm, List.prefix_append _ _, fun hn => ?_⟩
            rw [List.map_append]
            exact nodup_concat _ _ hn hnotmem
          | INSTANCE =>
            simp [regStep, hl, hreg', ht] at h
            refine ⟨_, h.2.symm, List.prefix_append _ _, fun hn => ?_⟩
            rw [List.map_append]
            exact nodup_concat _ _ hn hnotmem

theorem regStep_of_none (registry : List (Key × Nat)) (heap : List ResolverMeta)
    (stack : List (Option Nat)) :
    regStep registry heap stack none = StepRes.done (Except.ok none) ∨
    regStep registry heap stack none = StepRes.done (Except.error JsErr.nullDeref) ∨
    ∃ s1, regStep registry heap stack none = StepRes.next s1 none := by
  cases stack with
  | nil => exact Or.inl rfl
  | cons depRef? rest =>
    cases depRef? with
    | none => exact Or.inr (Or.inr ⟨rest, rfl⟩)
    | some dr =>
      cases hl : lookupA (nthD heap dr newResolverMeta).id registry with
      | none => exact Or.inr (Or.inr ⟨rest, by simp [regStep, hl]⟩)
      | some depR => exact Or.inr (Or.inl (by simp [regStep, hl]))

/- Invariants of the whole loop. -/

theorem regLoop_some_inv (registry : List (Key × Nat)) (heap : List ResolverMeta) :
    ∀ (fuel : Nat) (stack : List (Option Nat)) (cont cont' : Container),
      regLoop registry heap fuel stack (some cont) = some (Except.ok (some cont')) →
      (cont.regs.map Prod.fst).Nodup →
      (cont'.regs.map Prod.fst).Nodup ∧ cont.regs <+: cont'.regs := by
  intro fuel
  induction fuel with
  | zero =>
    intro stack cont cont' h hnd
    cases hs : regStep registry heap stack (some cont) with
    | done r =>
      simp [regLoop, hs] at h
      obtain ⟨-, hr⟩ := regStep_done_of_some registry heap stack cont r hs
      rw [h] at hr
      obtain rfl : cont' = cont := by simpa using hr
      exact ⟨hnd, List.prefix_refl _⟩
    | next s1 c1 => simp [regLoop, hs] at h
  | succ fuel ih =>
    intro stack cont cont' h hnd
    cases hs : regStep registry heap stack (some cont) with
    | done r =>
      simp [regLoop, hs] at h
      obtain ⟨-, hr⟩ := regStep_done_of_some registry heap stack cont r hs
      rw [h] at hr
      obtain rfl : cont' = cont := by simpa using hr
      exact ⟨hnd, List.prefix_refl _⟩
    | next s1 c1 =>
      simp only [regLoop, hs] at h
      obtain ⟨cont1, rfl, hpre, hnd1⟩ := regStep_next_of_some registry heap stack cont s1 c1 hs
      obtain ⟨hnd', hpre'⟩ := ih s1 cont1 cont' h (hnd1 hnd)
      exact ⟨hnd', hpre.trans hpre'⟩

theorem regLoop_none_inv (registry : List (Key × Nat)) (heap : List ResolverMeta) :
    ∀ (fuel : Nat) (stack : List (Option Nat)) (res : Except JsErr (Option Container)),
      regLoop registry heap fuel stack none = some res →
      res = Except.ok none ∨ res = Except.error JsErr.nullDeref := by
  intro fuel
  induction fuel with
  | zero =>
    intro stack res h
    rcases regStep_of_none registry heap stack with hs | hs | ⟨s1, hs⟩ <;>
      simp [regLoop, hs] at h
    · exact Or.inl h.symm
    · exact Or.inr h.symm
  | succ fuel ih =>
    intro stack res h
    rcases regStep_of_none registry heap stack with hs | hs | ⟨s1, hs⟩
    · simp [regLoop, hs] at h
      exact Or.inl h.symm
    · simp [regLoop, hs] at h
      exact Or.inr h.symm
    · simp only [regLoop, hs] at h
      exact ih s1 res h

/- Producer lemmas. -/

theorem resolveProps_ok_mem (heap : List ResolverMeta) (resolve : Key → Except JsErr Value) :
    ∀ (l : List Nat) (props : List (Key × Value)),
      resolveProps heap resolve l = Except.ok props →
      ∀ r ∈ l, ∃ v, resolve (nthD heap r newResolverMeta).id = Except.ok v ∧
        ((nthD heap r newResolverMeta).metaKey, v) ∈ props := by
  intro l
  induction l with
  | nil => intro props _ r hr; simp at hr
  | cons a t ih =>
    intro props hok r hr
    cases hv : resolve (nthD heap a newResolverMeta).id with
    | error e => simp [resolveProps, hv] at hok
    | ok v =>
      cases ht : resolveProps heap resolve t with
      | error e => simp [resolveProps, hv, ht] at hok
      | ok tail =>
        simp [resolveProps, hv, ht] at hok
        rcases List.mem_cons.mp hr with rfl | hrt
        · exact ⟨v, hv, by rw [← hok]; exact List.mem_cons_self _ _⟩
        · obtain ⟨v1, hv1, hmem⟩ := ih tail ht r hrt
          exact ⟨v1, hv1, by rw [← hok]; exact List.mem_cons_of_mem _ hmem⟩

theorem resolveProps_err (heap : List ResolverMeta) (resolve : Key → Except JsErr Value) :
    ∀ (l : List Nat) (r : Nat), r ∈ l →
      ∀ e, resolve (nthD heap r newResolverMeta).id = Except.error e →
      ∃ e1, resolveProps heap resolve l = Except.error e1 := by
  intro l
  induction l with
  | nil => intro r hr; simp at hr
  | cons a t ih =>
    intro r hr e he
    rcases List.mem_cons.mp hr with rfl | hrt
    · exact ⟨e, by simp [resolveProps, he]⟩
    · cases hv : resolve (nthD heap a newResolverMeta).id with
      | error e2 => exact ⟨e2, by simp [resolveProps, hv]⟩
      | ok v =>
        obtain ⟨e1, h1⟩ := ih r hrt e he
        exact ⟨e1, by simp [resolveProps, hv, h1]⟩

/- Small facts about the JS helpers. -/

theorem jsOr_of_not_falsy (a b : Key) (h : isFalsy a = false) : jsOr a b = a := by
  simp [jsOr, h]

theorem jsOr_undef (b : Key) : jsOr Key.undef b = b := rfl

theorem isFalsy_str (s : String) (h : s ≠ "") : isFalsy (Key.str s) = false := by
  simp [isFalsy, h]

theorem simpleNamed_ne_undef (p : Key) (h : simpleNamed p = true) : p ≠ Key.undef := by
  intro hp
  subst hp
  simp [simpleNamed, nameProp] at h

/- Unconditional registry/siteMeta preservation of the deps filler. -/

theorem registerDepsGo_stores (r : Nat) :
    ∀ (ps : List Key) (i : Nat) (st : DState),
      (registerDepsGo r ps i st).1.registry = st.registry ∧
      (registerDepsGo r ps i st).1.siteMeta = st.siteMeta := by
  intro ps
  induction ps with
  | nil => intro i st; exact ⟨rfl, rfl⟩
  | cons p rest ih =>
    intro i st
    by_cases hf : (getIdx (nthD st.heap r newResolverMeta).deps i).isSome = true
    · rw [registerDepsGo_cons_skip r p rest i st hf]
      exact ih (i + 1) st
    · have hf' : (getIdx (nthD st.heap r newResolverMeta).deps i).isSome = false := by
        simpa using hf
      rcases registerParam_cases st p i r none Key.undef with
        ⟨he, _⟩ | ⟨he, _, _⟩ | ⟨he, _, _⟩
      · rw [registerDepsGo_cons_err r p rest i st st JsErr.typeError hf' he]
        exact ⟨rfl, rfl⟩
      · rw [registerDepsGo_cons_err r p rest i st st JsErr.missingIdentifier hf' he]
        exact ⟨rfl, rfl⟩
      · rw [registerDepsGo_cons_ok r p rest i st (paramUpdate st i r p Key.undef) hf' he]
        exact ih (i + 1) (paramUpdate st i r p Key.undef)

theorem registrySetTail_heap (st : DState) (r : Nat) (t : Key) :
    (registrySetTail st r t).heap = st.heap := rfl

theorem registrySetTail_siteMeta (st : DState) (r : Nat) (t : Key) :
    (registrySetTail st r t).siteMeta = st.siteMeta := rfl

/-- The accessor shape (`descriptor.get || descriptor.set`) forces the
property branch even with three arguments. -/
theorem register_accessor_eq (env : ReflectEnv) (id : Key) (lc : Option LifeCycle)
    (target key v : Key) (st : DState) :
    register env id lc target key (DescArg.desc true v) st
      = registerProperty env id target key st := rfl

/- Effect lemmas for the branch helpers. -/

theorem getOrCreate_registry (st : DState) (t k : Key) :
    (getOrCreateSiteMeta st t k).1.registry = st.registry := by
  cases h : lookupA (t, k) st.siteMeta with
  | some r => rw [getOrCreate_hit st t k r h]
  | none => rw [getOrCreate_miss st t k h]

theorem getOrCreate_lookup (st : DState) (t k : Key) :
    lookupA (t, k) (getOrCreateSiteMeta st t k).1.siteMeta
      = some (getOrCreateSiteMeta st t k).2 := by
  cases h : lookupA (t, k) st.siteMeta with
  | some r => rw [getOrCreate_hit st t k r h]; exact h
  | none => rw [getOrCreate_miss st t k h]; exact lookupA_setAssoc_self _ _ _

theorem ctorUpdate_siteMeta (id : Key) (lc : Option LifeCycle) (target : Key)
    (st1 : DState) (r : Nat) :
    (ctorUpdate id lc target st1 r).siteMeta = st1.siteMeta := rfl

theorem ctorUpdate_registry (id : Key) (lc : Option LifeCycle) (target : Key)
    (st1 : DState) (r : Nat) :
    (ctorUpdate id lc target st1 r).registry = st1.registry := rfl

theorem ctorUpdate_length (id : Key) (lc : Option LifeCycle) (target : Key)
    (st1 : DState) (r : Nat) :
    (ctorUpdate id lc target st1 r).heap.length = st1.heap.length := by
  simp [ctorUpdate, length_setNth]

theorem ctorUpdate_owner (id : Key) (lc : Option LifeCycle) (target : Key)
    (st1 : DState) (r : Nat) (hr : r < st1.heap.length) :
    nthD (ctorUpdate id lc target st1 r).heap r newResolverMeta
      = { nthD st1.heap r newResolverMeta with
          type := ResolverType.TYPE,
          lifeCycle := jsOrLC lc (nthD st1.heap r newResolverMeta).lifeCycle,
          target := target,
          id := jsOr id target } := by
  simp only [ctorUpdate]
  rw [nthD_setNth_self _ _ _ _ hr]

theorem factoryUpdate_siteMeta (env : ReflectEnv) (id : Key) (lc : Option LifeCycle)
    (target key : Key) (d : DescArg) (st1 : DState) (r : Nat) :
    (factoryUpdate env id lc target key d st1 r).siteMeta = st1.siteMeta := rfl

theorem factoryUpdate_registry (env : ReflectEnv) (id : Key) (lc : Option LifeCycle)
    (target key : Key) (d : DescArg) (st1 : DState) (r : Nat) :
    (factoryUpdate env id lc target key d st1 r).registry = st1.registry := rfl

theorem factoryUpdate_length (env : ReflectEnv) (id : Key) (lc : Option LifeCycle)
    (target key : Key) (d : DescArg) (st1 : DState) (r : Nat) :
    (factoryUpdate env id lc target key d st1 r).heap.length = st1.heap.length := by
  simp [factoryUpdate, length_setNth]

theorem factoryUpdate_owner (env : ReflectEnv) (id : Key) (lc : Option LifeCycle)
    (target key : Key) (d : DescArg) (st1 : DState) (r : Nat) (hr : r < st1.heap.length) :
    nthD (factoryUpdate env id lc target key d st1 r).heap r newResolverMeta
      = { nthD st1.heap r newResolverMeta with
          type := ResolverType.FACTORY,
          target := descValue d,
          lifeCycle := jsOrLC lc (nthD st1.heap r newResolverMeta).lifeCycle,
          id := jsOr id ((env.returntype target key).getD Key.undef) } := by
  simp only [factoryUpdate]
  rw [nthD_setNth_self _ _ _ _ hr]

theorem registerDeps_stores (env : ReflectEnv) (st2 : DState) (r : Nat) (t k : Key) :
    (registerDeps env st2 r t k).1.registry = st2.registry ∧
    (registerDeps env st2 r t k).1.siteMeta = st2.siteMeta :=
  registerDepsGo_stores r ((env.paramtypes t k).getD []) 0 st2

theorem declTail_of_deps_none (env : ReflectEnv) (st2 : DState) (r : Nat) (t k : Key)
    (h : (registerDeps env st2 r t k).2 = none) :
    declTail env st2 r t k = (registrySetTail (registerDeps env st2 r t k).1 r t, none) := by
  simp only [declTail, h]

theorem declTail_of_deps_some (env : ReflectEnv) (st2 : DState) (r : Nat) (t k : Key)
    (e : JsErr) (h : (registerDeps env st2 r t k).2 = some e) :
    declTail env st2 r t k = ((registerDeps env st2 r t k).1, some e) := by
  simp only [declTail, h]

theorem declTail_siteMeta (env : ReflectEnv) (st2 : DState) (r : Nat) (t k : Key) :
    (declTail env st2 r t k).1.siteMeta = st2.siteMeta := by
  cases h : (registerDeps env st2 r t k).2 with
  | some e =>
    rw [declTail_of_deps_some env st2 r t k e h]
    exact (registerDeps_stores env st2 r t k).2
  | none =>
    rw [declTail_of_deps_none env st2 r t k h]
    rw [registrySetTail_siteMeta]
    exact (registerDeps_stores env st2 r t k).2

theorem declTail_registry_nodup (env : ReflectEnv) (st2 : DState) (r : Nat) (t k : Key)
    (hnd : (st2.registry.map Prod.fst).Nodup) :
    (((declTail env st2 r t k).1.registry).map Prod.fst).Nodup := by
  have hst : (registerDeps env st2 r t k).1.registry = st2.registry :=
    (registerDeps_stores env st2 r t k).1
  cases h : (registerDeps env st2 r t k).2 with
  | some e =>
    rw [declTail_of_deps_some env st2 r t k e h]
    simpa [hst] using hnd
  | none =>
    rw [declTail_of_deps_none env st2 r t k h]
    simp only [registrySetTail]
    apply nodup_keys_setAssoc
    simpa [hst] using hnd

theorem registerParamDecl_registry (env : ReflectEnv) (id : Key)
    (lc : Option LifeCycle) (target key : Key) (n : Nat) (st : DState) :
    (registerParamDecl env id lc target key n st).1.registry = st.registry := by
  simp only [registerParamDecl]
  rcases registerParam_cases (getOrCreateSiteMeta st target key).1
      (((env.paramtypes target key).getD []).getD n Key.undef) n
      (getOrCreateSiteMeta st target key).2 lc id with
    ⟨he, _⟩ | ⟨he, _, _⟩ | ⟨he, _, _⟩
  · rw [he]; exact getOrCreate_registry st target key
  · rw [he]; exact getOrCreate_registry st target key
  · rw [he]
    show (paramUpdate _ _ _ _ _).registry = st.registry
    exact getOrCreate_registry st target key

theorem registerProperty_registry_nodup (env : ReflectEnv) (id : Key)
    (target key : Key) (st : DState)
    (hnd : (st.registry.map Prod.fst).Nodup) :
    (((registerProperty env id target key st).1.registry).map Prod.fst).Nodup := by
  have hg : (getOrCreateSiteMeta st target Key.undef).1.registry = st.registry :=
    getOrCreate_registry st target Key.undef
  by_cases hpv : env.propValue target key = Key.undef
  · simp only [registerProperty, hpv, ne_eq, not_true_eq_false, if_false,
      ite_false, registrySetTail]
    apply nodup_keys_setAssoc
    simpa [hg] using hnd
  · simp only [registerProperty, ne_eq, hpv, not_false_eq_true, if_true,
      ite_true, registrySetTail]
    apply nodup_keys_setAssoc
    apply nodup_keys_setAssoc
    simpa [hg] using hnd

/-- Any single declaration keeps the registry keys duplicate-free: the only
registry writes are `Map.set` upserts. -/
theorem register_registry_nodup (env : ReflectEnv) (id : Key) (lc : Option LifeCycle)
    (target key : Key) (d : DescArg) (st : DState)
    (hnd : (st.registry.map Prod.fst).Nodup) :
    (((register env id lc target key d st).1.registry).map Prod.fst).Nodup := by
  have hctor : ∀ k2, (((registerConstructor env id lc target k2 st).1.registry).map
      Prod.fst).Nodup := by
    intro k2
    simp only [registerConstructor]
    apply declTail_registry_nodup
    rw [ctorUpdate_registry, getOrCreate_registry]
    exact hnd
  have hfact : ∀ k2 d2, (((registerFactoryDecl env id lc target k2 d2 st).1.registry).map
      Prod.fst).Nodup := by
    intro k2 d2
    simp only [registerFactoryDecl]
    apply declTail_registry_nodup
    rw [factoryUpdate_registry, getOrCreate_registry]
    exact hnd
  cases d with
  | undef =>
    by_cases hk : key = Key.undef
    · subst hk
      rw [register_ctor_eq]
      exact hctor Key.undef
    · rw [register_prop_eq env id lc target key st hk]
      exact registerProperty_registry_nodup env id target key st hnd
  | desc b v =>
    cases b with
    | true =>
      rw [register_accessor_eq]
      exact registerProperty_registry_nodup env id target key st hnd
    | false =>
      rw [register_factory_eq]
      exact hfact key (DescArg.desc false v)
  | idx n =>
    rw [register_param_eq, registerParamDecl_registry]
    exact hnd

/- Wrappers of the `registerDepsGo` lemmas at the `registerDeps` interface. -/

theorem registerDeps_fills (env : ReflectEnv) (st2 : DState) (r : Nat) (t k : Key)
    (h : (registerDeps env st2 r t k).2 = none) (hr : r < st2.heap.length) :
    ∀ i, i < ((env.paramtypes t k).getD []).length →
      (getIdx (nthD (registerDeps env st2 r t k).1.heap r newResolverMeta).deps i).isSome
        = true := by
  intro i hi
  have hpair : registerDeps env st2 r t k = ((registerDeps env st2 r t k).1, none) := by
    rw [← h]
  have := registerDepsGo_fills r ((env.paramtypes t k).getD []) 0 st2
    (registerDeps env st2 r t k).1 hpair hr i hi
  simpa using this

theorem registerDeps_filled (env : ReflectEnv) (st2 : DState) (r : Nat) (t k : Key)
    (h : ∀ i, i < ((env.paramtypes t k).getD []).length →
      (getIdx (nthD st2.heap r newResolverMeta).deps i).isSome = true) :
    registerDeps env st2 r t k = (st2, none) :=
  registerDepsGo_filled r ((env.paramtypes t k).getD []) 0 st2
    (fun ki hki => by simpa using h ki hki)

theorem registerDeps_fails (env : ReflectEnv) (st2 : DState) (r : Nat) (t k : Key)
    (hr : r < st2.heap.length)
    (hbad : ∃ i, i < ((env.paramtypes t k).getD []).length ∧
      getIdx (nthD st2.heap r newResolverMeta).deps i = none ∧
      paramFails (((env.paramtypes t k).getD []).getD i Key.undef) = true) :
    (registerDeps env st2 r t k).2.isSome = true := by
  obtain ⟨i, hi, hn, hfail⟩ := hbad
  exact registerDepsGo_fails r ((env.paramtypes t k).getD []) 0 st2 hr
    ⟨i, hi, by simpa using hn, hfail⟩

/- Claims. -/

/-- C1: for a `TYPE` descriptor with property-style dependencies, the
registered producer returns the constructed instance only after every property
dependency has resolved and been assigned under its `metaKey`; a failure of
any one property dependency fails the whole production, and no instance is
returned. -/
theorem c1_type_producer_barrier (heap : List ResolverMeta) (m : ResolverMeta)
    (target : Key) (resolve : Key → Except JsErr Value) (args : List Value) :
    (∀ v, typeProducer heap (some m) target resolve args = Except.ok v →
      ∀ r ∈ m.deps.filterMap (fun o => o),
        ∃ val, resolve (nthD heap r newResolverMeta).id = Except.ok val ∧
          ((nthD heap r newResolverMeta).metaKey, val) ∈ v.props)
    ∧ (∀ r ∈ m.deps.filterMap (fun o => o), ∀ e,
        resolve (nthD heap r newResolverMeta).id = Except.error e →
        ∀ v, typeProducer heap (some m) target resolve args ≠ Except.ok v) := by
  constructor
  · intro v hok r hr
    cases hrp : resolveProps heap resolve (m.deps.filterMap (fun o => o)) with
    | error e => simp [typeProducer, hrp] at hok
    | ok props =>
      simp [typeProducer, hrp] at hok
      obtain ⟨val, hval, hmem⟩ := resolveProps_ok_mem heap resolve _ props hrp r hr
      subst hok
      exact ⟨val, hval, by simpa [Value.props] using hmem⟩
  · intro r hr e he v hok
    obtain ⟨e1, h1⟩ := resolveProps_err heap resolve _ r hr e he
    simp [typeProducer, h1] at hok

/-- C1 witness: one property dependency that resolves; the produced instance
carries the assignment under the `metaKey`. -/
theorem c1_witness :
    ∃ val, (fun k => if k = Key.str "c"
        then Except.ok (Value.obj (Key.cls 9 "C") [] [])
        else (Except.error JsErr.typeError : Except JsErr Value))
          (nthD [{ newResolverMeta with id := Key.str "c", metaKey := Key.str "prop" }]
            0 newResolverMeta).id = Except.ok val ∧
      ((nthD [{ newResolverMeta with id := Key.str "c", metaKey := Key.str "prop" }]
          0 newResolverMeta).metaKey, val)
        ∈ (Value.obj (Key.cls 2 "A") []
            [(Key.str "prop", Value.obj (Key.cls 9 "C") [] [])]).props :=
  (c1_type_producer_barrier
      [{ newResolverMeta with id := Key.str "c", metaKey := Key.str "prop" }]
      { newResolverMeta with deps := [some 0] }
      (Key.cls 2 "A")
      (fun k => if k = Key.str "c"
        then Except.ok (Value.obj (Key.cls 9 "C") [] [])
        else (Except.error JsErr.typeError : Except JsErr Value))
      []).1
    (Value.obj (Key.cls 2 "A") [] [(Key.str "prop", Value.obj (Key.cls 9 "C") [] [])])
    rfl 0 (by simp)

/-- C2: within one traversal, a descriptor whose identifier the container
already holds is skipped, so no identifier is ever registered twice — the
registration list keeps duplicate-free keys and only grows, for every
dependency graph, including diamond shapes. -/
theorem c2_no_reregistration (registry : List (Key × Nat)) (heap : List ResolverMeta)
    (fuel : Nat) (root : Option Nat) (cont cont' : Container)
    (h : registerWithContainer registry heap fuel root (some cont)
      = some (Except.ok (some cont')))
    (hnd : (cont.regs.map Prod.fst).Nodup) :
    (cont'.regs.map Prod.fst).Nodup ∧ cont.regs <+: cont'.regs :=
  regLoop_some_inv registry heap fuel [root] cont cont' h hnd

/-- C2 witness: the `App`/`Db` graph registers each identifier once. -/
theorem c2_witness :
    (wContFinal.regs.map Prod.fst).Nodup ∧ wCont.regs <+: wContFinal.regs :=
  c2_no_reregistration wStB.registry wStB.heap 5 (some 0) wCont wContFinal
    rfl (by simp [wCont, injectableFactory])

/-- C7: a failure of the deferred post-declaration resolution is written to
the `debug` side channel and otherwise discarded (the callback's rejected
promise reaches no caller); the synchronously observable outcome of the
`inject` decorator is the same whether the deferred resolution later fails or
succeeds. -/
theorem c7_deferred_failure_isolated (env : ReflectEnv) (id : Key)
    (name : Option String) (lc : Option LifeCycle) (ds : DState) (target key : Key)
    (descriptor : DescArg) (fuel : Nat) (v : Value) (e : JsErr)
    (r1 r2 : Except JsErr Value) :
    (injectRun env id name lc ds target key descriptor fuel r1).map Prod.fst
      = (injectRun env id name lc ds target key descriptor fuel r2).map Prod.fst
    ∧ (∀ sess, injectDeferred sess (Except.error e) = (sess, [e], Except.error e))
    ∧ injectDeferred (none : Option Container) (Except.ok v)
        = (none, [], Except.ok ()) := by
  refine ⟨?_, fun sess => rfl, rfl⟩
  cases hs : injectSync env id name lc ds target key descriptor fuel with
  | none => simp [injectRun, hs]
  | some s =>
    cases ho : s.outcome with
    | ok r => simp [injectRun, hs, ho]
    | error e2 => simp [injectRun, hs, ho]

/-- C8: resolving a root through the session clears the current-session
pointer, and the returned handle is the container's handle for the root
descriptor's identifier. -/
theorem c8_session_handle (ds : DState) (cont : Container) (target key : Key)
    (fuel : Nat) (res : InjectableResult)
    (h : getInjectable ds (some cont) target key fuel = some (Except.ok res)) :
    res.session = none ∧
    ∃ r, lookupA (target, key) ds.siteMeta = some r ∧
      res.handle = lookupA (nthD ds.heap r newResolverMeta).id res.finalContainer.regs ∧
      registerWithContainer ds.registry ds.heap fuel (some r) (some cont)
        = some (Except.ok (some res.finalContainer)) := by
  cases hl : lookupA (target, key) ds.siteMeta with
  | none =>
    exfalso
    cases hw : registerWithContainer ds.registry ds.heap fuel none (some cont) with
    | none => simp [getInjectable, hl, hw] at h
    | some x =>
      cases x with
      | error e => simp [getInjectable, hl, hw] at h
      | ok c? => cases c? <;> simp [getInjectable, hl, hw] at h
  | some r =>
    cases hw : registerWithContainer ds.registry ds.heap fuel (some r) (some cont) with
    | none => exfalso; simp [getInjectable, hl, hw] at h
    | some x =>
      cases x with
      | error e => exfalso; simp [getInjectable, hl, hw] at h
      | ok c? =>
        cases c? with
        | none => exfalso; simp [getInjectable, hl, hw] at h
        | some c =>
          simp only [getInjectable, hl, hw, Option.some.injEq, Except.ok.injEq] at h
          subst h
          exact ⟨rfl, r, rfl, rfl, hw⟩

/-- C8 witness: the concrete `App` resolution clears the pointer and returns
the container's `App` handle. -/
theorem c8_witness :
    wRes.session = none ∧
    ∃ r, lookupA (Key.cls 0 "App", Key.undef) wStB.siteMeta = some r ∧
      wRes.handle = lookupA (nthD wStB.heap r newResolverMeta).id
        wRes.finalContainer.regs ∧
      registerWithContainer wStB.registry wStB.heap 5 (some r) (some wCont)
        = some (Except.ok (some wRes.finalContainer)) :=
  c8_session_handle wStB wCont (Key.cls 0 "App") Key.undef 5 wRes rfl

/-- C9: a session-bound lookup produces a handle at most once — a successful
call leaves the session pointer `null`, and any lookup against a `null`
session pointer fails (it dereferences the cleared container) instead of
returning a handle. -/
theorem c9_session_single_use (ds : DState) (sess : Option Container)
    (target key : Key) (fuel : Nat) (res : InjectableResult) :
    (getInjectable ds sess target key fuel = some (Except.ok res) → res.session = none)
    ∧ ∀ (ds2 : DState) (t2 k2 : Key) (fuel2 : Nat) (res2 : InjectableResult),
        getInjectable ds2 none t2 k2 fuel2 ≠ some (Except.ok res2) := by
  constructor
  · intro h
    cases hl : lookupA (target, key) ds.siteMeta with
    | none =>
      exfalso
      cases hw : registerWithContainer ds.registry ds.heap fuel none sess with
      | none => simp [getInjectable, hl, hw] at h
      | some x =>
        cases x with
        | error e => simp [getInjectable, hl, hw] at h
        | ok c? => cases c? <;> simp [getInjectable, hl, hw] at h
    | some r =>
      cases hw : registerWithContainer ds.registry ds.heap fuel (some r) sess with
      | none => exfalso; simp [getInjectable, hl, hw] at h
      | some x =>
        cases x with
        | error e => exfalso; simp [getInjectable, hl, hw] at h
        | ok c? =>
          cases c? with
          | none => exfalso; simp [getInjectable, hl, hw] at h
          | some c =>
            simp only [getInjectable, hl, hw, Option.some.injEq, Except.ok.injEq] at h
            subst h
            rfl
  · intro ds2 t2 k2 fuel2 res2 h
    cases hl : lookupA (t2, k2) ds2.siteMeta with
    | none =>
      cases hw : registerWithContainer ds2.registry ds2.heap fuel2 none none with
      | none => simp [getInjectable, hl, hw] at h
      | some x =>
        rcases regLoop_none_inv ds2.registry ds2.heap fuel2 [none] x hw with rfl | rfl <;>
          simp [getInjectable, hl, hw] at h
    | some r =>
      cases hw : registerWithContainer ds2.registry ds2.heap fuel2 (some r) none with
      | none => simp [getInjectable, hl, hw] at h
      | some x =>
        rcases regLoop_none_inv ds2.registry ds2.heap fuel2 [some r] x hw with rfl | rfl <;>
          simp [getInjectable, hl, hw] at h

/-- C9 witness: the concrete session resolves once with the pointer cleared,
and a second lookup against the cleared pointer cannot return a handle. -/
theorem c9_witness :
    wRes.session = none ∧
    getInjectable wStB none (Key.cls 0 "App") Key.undef 5 ≠ some (Except.ok wRes) :=
  ⟨(c9_session_single_use wStB (some wCont) (Key.cls 0 "App") Key.undef 5 wRes).1 rfl,
   (c9_session_single_use wStB (some wCont) (Key.cls 0 "App") Key.undef 5 wRes).2
     wStB (Key.cls 0 "App") Key.undef 5 wRes⟩

/-- C3 counterexample: for an unreflectable parameter type (the reflected
paramtypes metadata is absent, so `annotatedDeps[0]` is `undefined`),
declaring the parameter WITH an explicit identifier does not succeed as the
claim states — reading `param.name` throws a `TypeError` before the
identifier is ever considered. -/
theorem c3_counterexample :
    (register env3cex (Key.str "x") none (Key.cls 1 "B") Key.undef (DescArg.idx 0)
        wSt0).2 = some JsErr.typeError := rfl

/-- C3 (amended): for a parameter whose reflected type is present and carries
a primitive/simple name, declaring it without an explicit identifier fails
with `MissingIdentifierError` and leaves the state exactly as after the
owner-descriptor fetch (no child descriptor is created); declaring it with an
explicit (non-empty string) identifier succeeds and places a child descriptor
carrying that identifier at the positional index. (An absent/unreflectable
parameter type instead throws a `TypeError`, identifier or not.) -/
theorem c3_simple_param_identifier (env : ReflectEnv) (lc : Option LifeCycle)
    (target key : Key) (n : Nat) (st : DState) (s : String)
    (hfresh : lookupA (target, key) st.siteMeta = none)
    (hsimple : simpleNamed (((env.paramtypes target key).getD []).getD n Key.undef) = true)
    (hs : s ≠ "") :
    register env Key.undef lc target key (DescArg.idx n) st
        = ((getOrCreateSiteMeta st target key).1, some JsErr.missingIdentifier)
    ∧ (register env (Key.str s) lc target key (DescArg.idx n) st).2 = none
    ∧ getIdx (nthD (register env (Key.str s) lc target key (DescArg.idx n) st).1.heap
          st.heap.length newResolverMeta).deps n
        = some (st.heap.length + 1)
    ∧ (nthD (register env (Key.str s) lc target key (DescArg.idx n) st).1.heap
          (st.heap.length + 1) newResolverMeta).id = Key.str s := by
  have hpne : ¬ ((((env.paramtypes target key).getD []).getD n Key.undef) = Key.undef) :=
    simpleNamed_ne_undef _ hsimple
  have hc2 : (simpleNamed (((env.paramtypes target key).getD []).getD n Key.undef)
      && isFalsy Key.undef) = true := by
    rw [hsimple]; rfl
  have hc3 : ¬ ((simpleNamed (((env.paramtypes target key).getD []).getD n Key.undef)
      && isFalsy (Key.str s)) = true) := by
    rw [isFalsy_str s hs]; simp
  have hnoid : register env Key.undef lc target key (DescArg.idx n) st
      = ((getOrCreateSiteMeta st target key).1, some JsErr.missingIdentifier) := by
    rw [register_param_eq]
    simp only [registerParamDecl, registerParam, if_neg hpne, if_pos hc2]
  have hregeq : register env (Key.str s) lc target key (DescArg.idx n) st
      = (paramUpdate
          ({ st with heap := st.heap ++ [{ newResolverMeta with target := target }],
                     siteMeta := setAssoc st.siteMeta (target, key) st.heap.length })
          n st.heap.length
          (((env.paramtypes target key).getD []).getD n Key.undef) (Key.str s), none) := by
    rw [register_param_eq]
    simp only [registerParamDecl, registerParam, if_neg hpne, if_neg hc3]
    rw [getOrCreate_miss st target key hfresh]
  refine ⟨hnoid, by rw [hregeq], ?_, ?_⟩
  · rw [hregeq]
    rw [paramUpdate_owner
      ({ st with heap := st.heap ++ [{ newResolverMeta with target := target }],
                 siteMeta := setAssoc st.siteMeta (target, key) st.heap.length })
      n st.heap.length
      (((env.paramtypes target key).getD []).getD n Key.undef) (Key.str s)
      (by simp)]
    simp [getIdx_setIdx_self]
  · rw [hregeq]
    rw [paramUpdate_child
      ({ st with heap := st.heap ++ [{ newResolverMeta with target := target }],
                 siteMeta := setAssoc st.siteMeta (target, key) st.heap.length })
      n st.heap.length
      (((env.paramtypes target key).getD []).getD n Key.undef) (Key.str s)
      (st.heap.length + 1) (by simp) (by simp)]
    simp [childMeta, jsOr, isFalsy_str s hs]

/-- C3 witness: a `Number`-typed parameter at index 0 without an identifier
fails with the missing-identifier error and creates no child descriptor. -/
theorem c3_witness :
    register env3w Key.undef none (Key.cls 1 "B") Key.undef (DescArg.idx 0) wSt0
    = ((getOrCreateSiteMeta wSt0 (Key.cls 1 "B") Key.undef).1,
        some JsErr.missingIdentifier) :=
  (c3_simple_param_identifier env3w none (Key.cls 1 "B") Key.undef 0 wSt0 "x"
    rfl rfl (by decide)).1

/-- C5 counterexample: declaring a factory with no explicit identifier and a
primitive reflected return type does NOT fail with `MissingIdentifierError` —
it registers successfully, under the primitive return-type object itself. -/
theorem c5_counterexample :
    (register env5p Key.undef none (Key.cls 0 "W") (Key.str "make")
        (DescArg.desc false (Key.fn 0)) wSt0).2 = none
    ∧ lookupA (Key.prim "Number")
        (register env5p Key.undef none (Key.cls 0 "W") (Key.str "make")
          (DescArg.desc false (Key.fn 0)) wSt0).1.registry = some 0 :=
  ⟨rfl, rfl⟩

/-- C5 (amended): a factory declared with an explicit (non-empty string)
identifier behaves identically whatever the reflected return type is — the
return type is only a fallback identifier; a factory declared with neither an
explicit identifier nor parameters does not raise `MissingIdentifierError`:
it registers under the reflected return type when one is present, and under
the declaration target otherwise (`id || returntype`, then `id || target`). -/
theorem c5_factory_identifier :
    (∀ (env env2 : ReflectEnv), (∀ t k, env.paramtypes t k = env2.paramtypes t k) →
      ∀ (s : String) (lc : Option LifeCycle) (target key v : Key) (st : DState),
        s ≠ "" →
        register env (Key.str s) lc target key (DescArg.desc false v) st
          = register env2 (Key.str s) lc target key (DescArg.desc false v) st)
    ∧ (∀ (env : ReflectEnv) (lc : Option LifeCycle) (target key v : Key) (st : DState),
        lookupA (target, key) st.siteMeta = none →
        (env.paramtypes target key).getD [] = [] →
        (register env Key.undef lc target key (DescArg.desc false v) st).2 = none
        ∧ lookupA (jsOr ((env.returntype target key).getD Key.undef) target)
            (register env Key.undef lc target key (DescArg.desc false v) st).1.registry
          = some st.heap.length) := by
  constructor
  · intro env env2 hp s lc target key v st hs
    have hj : ∀ b, jsOr (Key.str s) b = Key.str s :=
      fun b => jsOr_of_not_falsy _ b (isFalsy_str s hs)
    rw [register_factory_eq, register_factory_eq]
    simp only [registerFactoryDecl, factoryUpdate, declTail, registerDeps, registrySetTail]
    rw [hp target key]
    simp only [hj]
  · intro env lc target key v st hfresh hp0
    rw [register_factory_eq]
    simp only [registerFactoryDecl]
    rw [getOrCreate_miss st target key hfresh]
    have hrd : registerDeps env
        (factoryUpdate env Key.undef lc target key (DescArg.desc false v)
          ({ st with heap := st.heap ++ [{ newResolverMeta with target := target }],
                     siteMeta := setAssoc st.siteMeta (target, key) st.heap.length })
          st.heap.length)
        st.heap.length target key
        = (factoryUpdate env Key.undef lc target key (DescArg.desc false v)
          ({ st with heap := st.heap ++ [{ newResolverMeta with target := target }],
                     siteMeta := setAssoc st.siteMeta (target, key) st.heap.length })
          st.heap.length, none) := by
      simp only [registerDeps, hp0]
      rfl
    rw [declTail_of_deps_none _ _ _ _ _ (by rw [hrd]), hrd]
    refine ⟨rfl, ?_⟩
    simp only [registrySetTail]
    rw [factoryUpdate_owner env Key.undef lc target key (DescArg.desc false v)
      ({ st with heap := st.heap ++ [{ newResolverMeta with target := target }],
                 siteMeta := setAssoc st.siteMeta (target, key) st.heap.length })
      st.heap.length (by simp)]
    simp only [jsOr_undef, factoryUpdate_registry]
    exact lookupA_setAssoc_self _ _ _

/-- C5 witness: with an explicit identifier the declaration outcome is
independent of the reflected return type. -/
theorem c5_witness :
    register env5p (Key.str "widget") none (Key.cls 0 "W") (Key.str "make")
        (DescArg.desc false (Key.fn 0)) wSt0
      = register env5n (Key.str "widget") none (Key.cls 0 "W") (Key.str "make")
        (DescArg.desc false (Key.fn 0)) wSt0 :=
  c5_factory_identifier.1 env5p env5n (fun _ _ => rfl) "widget" none
    (Key.cls 0 "W") (Key.str "make") (Key.fn 0) wSt0 (by decide)

/- Shape lemmas for the shared declaration tail. -/

theorem declTail_fills (env : ReflectEnv) (st2 : DState) (r : Nat) (t k : Key)
    (st1 : DState) (h : declTail env st2 r t k = (st1, none))
    (hr : r < st2.heap.length) :
    ∀ i, i < ((env.paramtypes t k).getD []).length →
      (getIdx (nthD st1.heap r newResolverMeta).deps i).isSome = true := by
  intro i hi
  cases hres : (registerDeps env st2 r t k).2 with
  | some e =>
    rw [declTail_of_deps_some env st2 r t k e hres] at h
    exact absurd (congrArg Prod.snd h) (by simp)
  | none =>
    rw [declTail_of_deps_none env st2 r t k hres] at h
    have h1 : registrySetTail (registerDeps env st2 r t k).1 r t = st1 :=
      congrArg Prod.fst h
    have hst1 : st1.heap = (registerDeps env st2 r t k).1.heap := by
      rw [← h1, registrySetTail_heap]
    rw [hst1]
    exact registerDeps_fills env st2 r t k hres hr i hi

theorem declTail_fails (env : ReflectEnv) (st2 : DState) (r : Nat) (t k : Key)
    (hr : r < st2.heap.length)
    (hbad : ∃ i, i < ((env.paramtypes t k).getD []).length ∧
      getIdx (nthD st2.heap r newResolverMeta).deps i = none ∧
      paramFails (((env.paramtypes t k).getD []).getD i Key.undef) = true) :
    (declTail env st2 r t k).2.isSome = true ∧
    (declTail env st2 r t k).1.registry = st2.registry := by
  have h2 := registerDeps_fails env st2 r t k hr hbad
  obtain ⟨e, he⟩ : ∃ e, (registerDeps env st2 r t k).2 = some e := by
    cases hx : (registerDeps env st2 r t k).2 with
    | none => rw [hx] at h2; simp at h2
    | some e => exact ⟨e, rfl⟩
  rw [declTail_of_deps_some env st2 r t k e he]
  exact ⟨rfl, (registerDeps_stores env st2 r t k).1⟩

theorem ctorUpdate_deps (id : Key) (lc : Option LifeCycle) (target : Key)
    (st1 : DState) (r : Nat) (hr : r < st1.heap.length) :
    (nthD (ctorUpdate id lc target st1 r).heap r newResolverMeta).deps
      = (nthD st1.heap r newResolverMeta).deps := by
  rw [ctorUpdate_owner id lc target st1 r hr]

theorem factoryUpdate_deps (env : ReflectEnv) (id : Key) (lc : Option LifeCycle)
    (target key : Key) (d : DescArg) (st1 : DState) (r : Nat)
    (hr : r < st1.heap.length) :
    (nthD (factoryUpdate env id lc target key d st1 r).heap r newResolverMeta).deps
      = (nthD st1.heap r newResolverMeta).deps := by
  rw [factoryUpdate_owner env id lc target key d st1 r hr]

/-- C4: once a constructor or factory declaration goes through, every
parameter position of the reflected parameter list holds a descriptor
(implicit from the reflected type or explicit from a prior annotation); when
some position cannot obtain one (its reflected type is simple/absent and it
has no explicit annotation), the declaration fails instead of proceeding, and
the descriptor never reaches the registry. -/
theorem c4_deps_complete_or_fail (env : ReflectEnv) (id : Key)
    (lc : Option LifeCycle) (target : Key) (st : DState)
    (hok : siteRefOk st target Key.undef) :
    (∀ st1, register env id lc target Key.undef DescArg.undef st = (st1, none) →
      ∀ i, i < ((env.paramtypes target Key.undef).getD []).length →
        (getIdx (siteDeps st1 target Key.undef) i).isSome = true)
    ∧ ((∃ i, i < ((env.paramtypes target Key.undef).getD []).length ∧
          getIdx (siteDeps st target Key.undef) i = none ∧
          paramFails (((env.paramtypes target Key.undef).getD []).getD i Key.undef)
            = true) →
        (register env id lc target Key.undef DescArg.undef st).2.isSome = true
        ∧ (register env id lc target Key.undef DescArg.undef st).1.registry
          = st.registry)
    ∧ (∀ (key v : Key) st1, siteRefOk st target key →
        register env id lc target key (DescArg.desc false v) st = (st1, none) →
        ∀ i, i < ((env.paramtypes target key).getD []).length →
          (getIdx (siteDeps st1 target key) i).isSome = true)
    ∧ (∀ (key v : Key), siteRefOk st target key →
        (∃ i, i < ((env.paramtypes target key).getD []).length ∧
          getIdx (siteDeps st target key) i = none ∧
          paramFails (((env.paramtypes target key).getD []).getD i Key.undef) = true) →
        (register env id lc target key (DescArg.desc false v) st).2.isSome = true
        ∧ (register env id lc target key (DescArg.desc false v) st).1.registry
          = st.registry) := by
  have main : ∀ (key : Key) (st2 : DState) (r : Nat),
      st2.siteMeta = (getOrCreateSiteMeta st target key).1.siteMeta →
      st2.registry = st.registry →
      r = (getOrCreateSiteMeta st target key).2 →
      r < st2.heap.length →
      (nthD st2.heap r newResolverMeta).deps = siteDeps st target key →
      (∀ st1, declTail env st2 r target key = (st1, none) →
        ∀ i, i < ((env.paramtypes target key).getD []).length →
          (getIdx (siteDeps st1 target key) i).isSome = true)
      ∧ ((∃ i, i < ((env.paramtypes target key).getD []).length ∧
            getIdx (siteDeps st target key) i = none ∧
            paramFails (((env.paramtypes target key).getD []).getD i Key.undef)
              = true) →
          (declTail env st2 r target key).2.isSome = true
          ∧ (declTail env st2 r target key).1.registry = st.registry) := by
    intro key st2 r hsm hreg hrdef hr hdeps
    constructor
    · intro st1 h i hi
      have hsm1 : st1.siteMeta = st2.siteMeta := by
        have h1 : (declTail env st2 r target key).1 = st1 := congrArg Prod.fst h
        rw [← h1]
        exact declTail_siteMeta env st2 r target key
      have hlk : lookupA (target, key) st1.siteMeta = some r := by
        rw [hsm1, hsm, hrdef]
        exact getOrCreate_lookup st target key
      have := declTail_fills env st2 r target key st1 h hr i hi
      simpa [siteDeps, hlk] using this
    · intro hbad
      have hbad2 : ∃ i, i < ((env.paramtypes target key).getD []).length ∧
          getIdx (nthD st2.heap r newResolverMeta).deps i = none ∧
          paramFails (((env.paramtypes target key).getD []).getD i Key.undef)
            = true := by
        obtain ⟨i, hi, hn, hfail⟩ := hbad
        exact ⟨i, hi, by rw [hdeps]; exact hn, hfail⟩
      obtain ⟨h1, h2⟩ := declTail_fails env st2 r target key hr hbad2
      exact ⟨h1, by rw [h2, hreg]⟩
  have prep : ∀ (key : Key), siteRefOk st target key →
      ∀ (mk : DState → Nat → DState),
      (∀ stx rx, (mk stx rx).siteMeta = stx.siteMeta) →
      (∀ stx rx, (mk stx rx).registry = stx.registry) →
      (∀ stx rx, (mk stx rx).heap.length = stx.heap.length) →
      (∀ stx rx, rx < stx.heap.length →
        (nthD (mk stx rx).heap rx newResolverMeta).deps
          = (nthD stx.heap rx newResolverMeta).deps) →
      (∀ st1, declTail env
          (mk (getOrCreateSiteMeta st target key).1 (getOrCreateSiteMeta st target key).2)
          (getOrCreateSiteMeta st target key).2 target key = (st1, none) →
        ∀ i, i < ((env.paramtypes target key).getD []).length →
          (getIdx (siteDeps st1 target key) i).isSome = true)
      ∧ ((∃ i, i < ((env.paramtypes target key).getD []).length ∧
            getIdx (siteDeps st target key) i = none ∧
            paramFails (((env.paramtypes target key).getD []).getD i Key.undef)
              = true) →
          (declTail env
            (mk (getOrCreateSiteMeta st target key).1 (getOrCreateSiteMeta st target key).2)
            (getOrCreateSiteMeta st target key).2 target key).2.isSome = true
          ∧ (declTail env
            (mk (getOrCreateSiteMeta st target key).1 (getOrCreateSiteMeta st target key).2)
            (getOrCreateSiteMeta st target key).2 target key).1.registry
            = st.registry) := by
    intro key hsro mk hmkSm hmkReg hmkLen hmkDeps
    cases hl : lookupA (target, key) st.siteMeta with
    | some r =>
      have hr : r < st.heap.length := by
        have := hsro
        simp only [siteRefOk, hl] at this
        exact this
      have hoc : getOrCreateSiteMeta st target key = (st, r) :=
        getOrCreate_hit st target key r hl
      rw [hoc]
      refine main key (mk st r) r ?_ ?_ ?_ ?_ ?_
      · rw [hmkSm, hoc]
      · rw [hmkReg]
      · rw [hoc]
      · rw [hmkLen]; exact hr
      · rw [hmkDeps st r hr]
        simp [siteDeps, hl]
    | none =>
      have hoc := getOrCreate_miss st target key hl
      rw [hoc]
      have hlen : (({ st with
          heap := st.heap ++ [{ newResolverMeta with target := target }],
          siteMeta := setAssoc st.siteMeta (target, key) st.heap.length } : DState)).heap.length
          = st.heap.length + 1 := by simp
      refine main key (mk _ st.heap.length) st.heap.length ?_ ?_ ?_ ?_ ?_
      · rw [hmkSm, hoc]
      · rw [hmkReg]
      · rw [hoc]
      · rw [hmkLen, hlen]; omega
      · rw [hmkDeps _ st.heap.length (by rw [hlen]; omega)]
        rw [show nthD (({ st with
            heap := st.heap ++ [{ newResolverMeta with target := target }],
            siteMeta := setAssoc st.siteMeta (target, key) st.heap.length } : DState)).heap
            st.heap.length newResolverMeta
          = ({ newResolverMeta with target := target } : ResolverMeta) from
            nthD_append_self st.heap _ _]
        simp [siteDeps, hl, newResolverMeta]
  refine ⟨?_, ?_, ?_, ?_⟩
  · intro st1 h
    rw [register_ctor_eq] at h
    exact (prep Key.undef hok (fun stx rx => ctorUpdate id lc target stx rx)
      (fun _ _ => rfl) (fun _ _ => rfl) (fun stx rx => ctorUpdate_length id lc target stx rx)
      (fun stx rx hrx => ctorUpdate_deps id lc target stx rx hrx)).1 st1 h
  · intro hbad
    rw [register_ctor_eq]
    exact (prep Key.undef hok (fun stx rx => ctorUpdate id lc target stx rx)
      (fun _ _ => rfl) (fun _ _ => rfl) (fun stx rx => ctorUpdate_length id lc target stx rx)
      (fun stx rx hrx => ctorUpdate_deps id lc target stx rx hrx)).2 hbad
  · intro key v st1 hsro h
    rw [register_factory_eq] at h
    exact (prep key hsro
      (fun stx rx => factoryUpdate env id lc target key (DescArg.desc false v) stx rx)
      (fun _ _ => rfl) (fun _ _ => rfl)
      (fun stx rx => factoryUpdate_length env id lc target key (DescArg.desc false v) stx rx)
      (fun stx rx hrx =>
        factoryUpdate_deps env id lc target key (DescArg.desc false v) stx rx hrx)).1 st1 h
  · intro key v hsro hbad
    rw [register_factory_eq]
    exact (prep key hsro
      (fun stx rx => factoryUpdate env id lc target key (DescArg.desc false v) stx rx)
      (fun _ _ => rfl) (fun _ _ => rfl)
      (fun stx rx => factoryUpdate_length env id lc target key (DescArg.desc false v) stx rx)
      (fun stx rx hrx =>
        factoryUpdate_deps env id lc target key (DescArg.desc false v) stx rx hrx)).2 hbad

/-- C4 witness: after the concrete `App` declaration, parameter position 0
holds a descriptor. -/
theorem c4_witness :
    (getIdx (siteDeps wStA (Key.cls 0 "App") Key.undef) 0).isSome = true :=
  (c4_deps_complete_or_fail wEnv Key.undef none (Key.cls 0 "App") wSt0
    (by simp [siteRefOk, wSt0, lookupA])).1 wStA rfl 0 (by simp [wEnv])

theorem declTail_heap (env : ReflectEnv) (st2 : DState) (r : Nat) (t k : Key) :
    (declTail env st2 r t k).1.heap = (registerDeps env st2 r t k).1.heap := by
  cases hres : (registerDeps env st2 r t k).2 with
  | some e => rw [declTail_of_deps_some env st2 r t k e hres]
  | none => rw [declTail_of_deps_none env st2 r t k hres, registrySetTail_heap]

theorem registerDeps_frame (env : ReflectEnv) (st2 : DState) (r : Nat) (t k : Key)
    (hr : r < st2.heap.length) : FrameLe st2 (registerDeps env st2 r t k).1 r :=
  registerDepsGo_frame r ((env.paramtypes t k).getD []) 0 st2 hr

theorem applyCalls_registry_nodup (env : ReflectEnv) :
    ∀ (calls : List DeclCall) (st : DState),
      ((st.registry.map Prod.fst).Nodup) →
      (((applyCalls env calls st).registry.map Prod.fst).Nodup) := by
  intro calls
  induction calls with
  | nil => intro st h; exact h
  | cons c rest ih =>
    intro st h
    exact ih _ (register_registry_nodup env c.id c.lifeCycle c.target c.key c.descriptor st h)

/-- C6: re-declaring the same (constructor) declaration site updates the one
descriptor fetched back from the site metadata in place — the site still maps
to the same heap reference, the second declaration succeeds, and no new
descriptor is allocated — and after any sequence of declarations the registry
maps each identifier to at most one descriptor (its keys stay
duplicate-free). -/
theorem c6_redeclare_in_place (env : ReflectEnv) (id1 : Key) (lc1 : Option LifeCycle)
    (id2 : Key) (lc2 : Option LifeCycle) (target : Key) (st st1 : DState)
    (hfresh : lookupA (target, Key.undef) st.siteMeta = none)
    (h1 : register env id1 lc1 target Key.undef DescArg.undef st = (st1, none)) :
    lookupA (target, Key.undef) st1.siteMeta = some st.heap.length
    ∧ (register env id2 lc2 target Key.undef DescArg.undef st1).2 = none
    ∧ lookupA (target, Key.undef)
        (register env id2 lc2 target Key.undef DescArg.undef st1).1.siteMeta
      = some st.heap.length
    ∧ (register env id2 lc2 target Key.undef DescArg.undef st1).1.heap.length
      = st1.heap.length
    ∧ ∀ (calls : List DeclCall) (stq : DState),
        ((stq.registry.map Prod.fst).Nodup) →
        (((applyCalls env calls stq).registry.map Prod.fst).Nodup) := by
  have hoc := getOrCreate_miss st target Key.undef hfresh
  rw [register_ctor_eq] at h1
  simp only [registerConstructor, hoc] at h1
  set stC : DState :=
    ({ st with heap := st.heap ++ [{ newResolverMeta with target := target }],
               siteMeta := setAssoc st.siteMeta (target, Key.undef) st.heap.length })
    with hstC
  have hlenC : stC.heap.length = st.heap.length + 1 := by simp [hstC]
  have hr2 : st.heap.length < (ctorUpdate id1 lc1 target stC st.heap.length).heap.length := by
    rw [ctorUpdate_length, hlenC]; omega
  have hA : (declTail env (ctorUpdate id1 lc1 target stC st.heap.length)
      st.heap.length target Key.undef).1 = st1 := congrArg Prod.fst h1
  have hsm1 : st1.siteMeta = stC.siteMeta := by
    rw [← hA, declTail_siteMeta, ctorUpdate_siteMeta]
  have hlk1 : lookupA (target, Key.undef) st1.siteMeta = some st.heap.length := by
    rw [hsm1]
    exact lookupA_setAssoc_self _ _ _
  have hfill := declTail_fills env (ctorUpdate id1 lc1 target stC st.heap.length)
    st.heap.length target Key.undef st1 h1 hr2
  have hheap1 : st1.heap = (registerDeps env
      (ctorUpdate id1 lc1 target stC st.heap.length) st.heap.length
      target Key.undef).1.heap := by
    rw [← hA, declTail_heap]
  have hmono : (ctorUpdate id1 lc1 target stC st.heap.length).heap.length
      ≤ st1.heap.length := by
    rw [hheap1]
    exact (registerDeps_frame env (ctorUpdate id1 lc1 target stC st.heap.length)
      st.heap.length target Key.undef hr2).2.2.1
  have hr1' : st.heap.length < st1.heap.length :=
    Nat.lt_of_lt_of_le hr2 hmono
  have hfill2 : ∀ i, i < ((env.paramtypes target Key.undef).getD []).length →
      (getIdx (nthD (ctorUpdate id2 lc2 target st1 st.heap.length).heap
        st.heap.length newResolverMeta).deps i).isSome = true := by
    intro i hi
    rw [ctorUpdate_deps id2 lc2 target st1 st.heap.length hr1']
    exact hfill i hi
  have hrdid : registerDeps env (ctorUpdate id2 lc2 target st1 st.heap.length)
      st.heap.length target Key.undef
      = (ctorUpdate id2 lc2 target st1 st.heap.length, none) :=
    registerDeps_filled env (ctorUpdate id2 lc2 target st1 st.heap.length)
      st.heap.length target Key.undef hfill2
  have heq2 : register env id2 lc2 target Key.undef DescArg.undef st1
      = (registrySetTail (ctorUpdate id2 lc2 target st1 st.heap.length)
          st.heap.length target, none) := by
    rw [register_ctor_eq]
    simp only [registerConstructor,
      getOrCreate_hit st1 target Key.undef st.heap.length hlk1]
    rw [declTail_of_deps_none _ _ _ _ _ (by rw [hrdid]), hrdid]
  refine ⟨hlk1, by rw [heq2], ?_, ?_, applyCalls_registry_nodup env⟩
  · rw [heq2, registrySetTail_siteMeta, ctorUpdate_siteMeta]
    exact hlk1
  · rw [heq2, registrySetTail_heap, ctorUpdate_length]

/-- C6 witness: re-declaring the concrete `App` site allocates no new
descriptor. -/
theorem c6_witness :
    (register wEnv (Key.str "app") none (Key.cls 0 "App") Key.undef DescArg.undef
      wStA).1.heap.length = wStA.heap.length :=
  (c6_redeclare_in_place wEnv Key.undef none (Key.str "app") none (Key.cls 0 "App")
    wSt0 wStA rfl rfl).2.2.2.1

/-- C10: a freshly created descriptor has kind `TYPE` and lifecycle
`SINGLETON` (the class field initializers), and a constructor or factory
declaration invoked without a lifecycle argument preserves the descriptor's
existing lifecycle (`lifeCycle || targetMeta.lifeCycle` with an `undefined`
argument). -/
theorem c10_defaults_preserved :
    newResolverMeta.type = ResolverType.TYPE
    ∧ newResolverMeta.lifeCycle = LifeCycle.SINGLETON
    ∧ (∀ (env : ReflectEnv) (id target : Key) (st : DState) (r : Nat),
        lookupA (target, Key.undef) st.siteMeta = some r → r < st.heap.length →
        (nthD (register env id none target Key.undef DescArg.undef st).1.heap r
          newResolverMeta).lifeCycle = (nthD st.heap r newResolverMeta).lifeCycle)
    ∧ (∀ (env : ReflectEnv) (id target key v : Key) (st : DState) (r : Nat),
        lookupA (target, key) st.siteMeta = some r → r < st.heap.length →
        (nthD (register env id none target key (DescArg.desc false v) st).1.heap r
          newResolverMeta).lifeCycle = (nthD st.heap r newResolverMeta).lifeCycle) := by
  refine ⟨rfl, rfl, ?_, ?_⟩
  · intro env id target st r hl hr
    rw [register_ctor_eq]
    simp only [registerConstructor, getOrCreate_hit st target Key.undef r hl]
    have hr2 : r < (ctorUpdate id none target st r).heap.length := by
      rw [ctorUpdate_length]; exact hr
    rw [declTail_heap]
    rw [(registerDeps_frame env (ctorUpdate id none target st r) r target
      Key.undef hr2).2.2.2.1]
    rw [ctorUpdate_owner id none target st r hr]
    rfl
  · intro env id target key v st r hl hr
    rw [register_factory_eq]
    simp only [registerFactoryDecl, getOrCreate_hit st target key r hl]
    have hr2 : r < (factoryUpdate env id none target key
        (DescArg.desc false v) st r).heap.length := by
      rw [factoryUpdate_length]; exact hr
    rw [declTail_heap]
    rw [(registerDeps_frame env (factoryUpdate env id none target key
      (DescArg.desc false v) st r) r target key hr2).2.2.2.1]
    rw [factoryUpdate_owner env id none target key (DescArg.desc false v) st r hr]
    rfl

/-- C10 witness: re-declaring `App` without a lifecycle keeps the stored
descriptor's lifecycle. -/
theorem c10_witness :
    (nthD (register wEnv (Key.str "a") none (Key.cls 0 "App") Key.undef
      DescArg.undef wStA).1.heap 0 newResolverMeta).lifeCycle
    = (nthD wStA.heap 0 newResolverMeta).lifeCycle :=
  c10_defaults_preserved.2.2.1 wEnv (Key.str "a") (Key.cls 0 "App") wStA 0
    rfl (by decide)

end OpiumDecor

